import Mathlib

/-!
Verification of the core of eris.c, a heavy-duty persistence library for
Lua 5.2.2.  The library serializes arbitrary Lua value graphs (including
cyclic tables, closures with shared upvalues and suspended coroutines) to a
byte string and reconstructs them.

Shallow embedding conventions:
  - Lua values are the inductive type Value; heap objects (tables, userdata,
    closures, prototypes, upvalue cells, threads) live in a Store, an
    association list from addresses to objects.  An address plays the role
    of a C pointer / object identity.
  - The byte stream is modelled at the granularity of the WRITE_VALUE /
    READ_VALUE macros of the source: one token of type W per primitive
    write.  A read of the wrong primitive type is modelled as the stream
    error "could not read data".
  - Machine floats (lua_Number) are carried verbatim by the codec, so they
    are modelled by an opaque integer payload.
  - The recursive persist and unpersist routines of the source are embedded
    with an explicit fuel parameter.  Every recursion cycle of the source
    passes through persist_keyed on the writer side and through unpersist on
    the reader side, so those two functions carry the fuel and all other
    routines are non-recursive functions parameterized by the recursive
    continuation ("persistR", "keyedR", "recur").  Fuel exhaustion is the
    model-only error outOfFuel; all theorems either provide sufficient fuel
    or hypothesize a successful run.
  - Source defaults of the static configuration are fixed:
    generatePath = 0 (the path machinery writes nothing and is omitted),
    writeDebugInformation = 1, passIOToPersist = 0, persistKey "__persist".
  - lua_call of a user callback (the special-persistence protocol) is an
    oracle function supplied in PersistInfo and UnpersistInfo.
-/

namespace Eris

/-- Basic type tags of Lua 5.2.2 (lua.h, a fixed external ABI of the host VM). -/
def LUA_TNIL : Int := 0
def LUA_TBOOLEAN : Int := 1
def LUA_TLIGHTUSERDATA : Int := 2
def LUA_TNUMBER : Int := 3
def LUA_TSTRING : Int := 4
def LUA_TTABLE : Int := 5
def LUA_TFUNCTION : Int := 6
def LUA_TUSERDATA : Int := 7
def LUA_TTHREAD : Int := 8
/-- Extra internal tags of lobject.h: LUA_TPROTO = LUA_NUMTAGS = 9. -/
def LUA_TPROTO : Int := 9
def LUA_TUPVAL : Int := 10
/-- LUA_TOTALTAGS = LUA_TUPVAL + 2 = 12 in lobject.h. -/
def LUA_TOTALTAGS : Int := 12

/-- Tag written when a value is replaced via the permanents table. -/
def ERIS_PERMANENT : Int := LUA_TOTALTAGS + 1

/-- First reference id offset: a framing word above this is a reference. -/
def ERIS_REFERENCE_OFFSET : Int := ERIS_PERMANENT + 1

/-- CallInfo status bits of lstate.h (Lua 5.2.2, external ABI). -/
def CIST_LUA : Nat := 1
def CIST_HOOKED : Nat := 2
def CIST_REENTRY : Nat := 4
def CIST_YIELDED : Nat := 8
def CIST_YPCALL : Nat := 16
def CIST_STAT : Nat := 32
def CIST_TAIL : Nat := 64
def CIST_HOOKYIELD : Nat := 128

/-- Sentinel written by p_thread to terminate the open-upvalue list:
the value (size_t)-1 on a build with a 64-bit size_t. -/
def SIZE_SENTINEL : Nat := 2 ^ 64 - 1

/-- Heap addresses: the model of C object identity (pointers). -/
abbrev Addr := Nat

/-- Lua values.  Strings are byte lists (Lua strings are raw byte arrays,
compared by content).  A light C function (LUA_TLCF) has no heap identity
and is compared by its function pointer, modelled as a number.  Tables,
full userdata, closures (LUA_TCCL and LUA_TLCL) and threads are heap
objects referenced by address. -/
inductive Value where
  | nil
  | boolean (b : Bool)
  | lightuserdata (p : Nat)
  | number (n : Int)
  | str (s : List Nat)
  | table (a : Addr)
  | userdata (a : Addr)
  | cfunction (f : Nat)
  | closure (a : Addr)
  | thread (a : Addr)
deriving DecidableEq, Repr

/-- A Lua table: its key/value pairs (in lua_next traversal order) and its
optional metatable (always itself a table, hence an address). -/
structure TableData where
  pairs : List (Value × Value)
  meta : Option Addr
deriving DecidableEq, Repr

/-- A full userdata: its raw memory block and optional metatable. -/
structure UserdataData where
  payload : List Nat
  meta : Option Addr
deriving DecidableEq, Repr

/-- One upvalue descriptor of a prototype (Upvaldesc of lobject.h). -/
structure UpvalDesc where
  instack : Nat
  idx : Nat
  name : Option (List Nat)
deriving DecidableEq, Repr

/-- One local-variable debug record of a prototype (LocVar of lobject.h). -/
structure LocVarData where
  startpc : Int
  endpc : Int
  varname : Option (List Nat)
deriving DecidableEq, Repr

/-- A function prototype (Proto of lobject.h); vector sizes are the list
lengths. -/
structure ProtoData where
  linedefined : Int
  lastlinedefined : Int
  numparams : Nat
  is_vararg : Nat
  maxstacksize : Nat
  code : List Nat
  k : List Value
  p : List Addr
  upvalues : List UpvalDesc
  source : Option (List Nat)
  lineinfo : List Int
  locvars : List LocVarData
deriving DecidableEq, Repr

/-- A closure: either a C closure (underlying C function plus closed upvalue
values stored inline) or a Lua closure (prototype plus upvalue cells, by
address; none models a NULL upval pointer of a freshly allocated closure). -/
inductive ClosureData where
  | c (f : Nat) (upvals : List Value)
  | l (proto : Addr) (upvals : List (Option Addr))
deriving DecidableEq, Repr

/-- The union part of a CallInfo: a Lua frame stores base and savedpc as
offsets (the source stores pointers; savedpc is persisted as the offset
from the code base, which is what the model stores directly), a C frame
stores the continuation status, context and continuation function. -/
inductive CallInfoU where
  | lua (baseOff : Nat) (savedpcOff : Nat)
  | c (status : Nat) (ctx : Int) (k : Option Nat)
deriving DecidableEq, Repr

/-- One call-info frame; stack positions are slot offsets from the stack
base (eris_savestack / eris_restorestack). -/
structure CallInfoData where
  funcOff : Nat
  topOff : Nat
  nresults : Int
  callstatus : Nat
  extra : Int
  u : CallInfoU
deriving DecidableEq, Repr

/-- A coroutine (lua_State).  errorJmp is whether the error-jump buffer is
non-NULL; stack holds the live slots from the stack base up to top;
callinfo is the base_ci .. ci chain; openupvals lists (stack offset,
upvalue-cell address) pairs in the open-upvalue list. -/
structure ThreadData where
  status : Nat
  nCcalls : Nat
  allowhook : Nat
  hook : Bool
  errorJmp : Bool
  errfunc : Int
  stacksize : Nat
  stack : List Value
  callinfo : List CallInfoData
  openupvals : List (Nat × Addr)
deriving DecidableEq, Repr

/-- A heap object.  upv is an upvalue cell holding one value (a closed
upvalue; open upvalues of a thread additionally appear in that thread's
openupvals list). -/
inductive Obj where
  | tbl (t : TableData)
  | udata (u : UserdataData)
  | clos (c : ClosureData)
  | prot (p : ProtoData)
  | upv (v : Value)
  | thrd (t : ThreadData)
deriving DecidableEq, Repr

/-- The heap: association list from address to object; lookup returns the
first binding, update prepends (so it shadows older bindings). -/
abbrev Store := List (Addr × Obj)

def sfind (σ : Store) (a : Addr) : Option Obj :=
  (σ.find? (fun e => e.1 = a)).map (fun e => e.2)

def supd (σ : Store) (a : Addr) (o : Obj) : Store := (a, o) :: σ

/-- lua_type of a value. -/
def luaTypeOf : Value → Int
  | .nil => LUA_TNIL
  | .boolean _ => LUA_TBOOLEAN
  | .lightuserdata _ => LUA_TLIGHTUSERDATA
  | .number _ => LUA_TNUMBER
  | .str _ => LUA_TSTRING
  | .table _ => LUA_TTABLE
  | .userdata _ => LUA_TUSERDATA
  | .cfunction _ => LUA_TFUNCTION
  | .closure _ => LUA_TFUNCTION
  | .thread _ => LUA_TTHREAD

/-- kTypenames of the source, used in error messages. -/
def kTypenames : List String :=
  ["nil", "boolean", "lightuserdata", "number", "string",
   "table", "function", "userdata", "thread", "proto", "upval"]

def typename (t : Int) : String := kTypenames.getD t.toNat "?"

/-- lua_toboolean: everything except nil and false is true. -/
def toboolean : Value → Bool
  | .nil => false
  | .boolean b => b
  | _ => true

/-- lua_touserdata: the pointer payload of light or full userdata, NULL
(modelled 0) otherwise. -/
def touserdata : Value → Nat
  | .lightuserdata p => p
  | .userdata a => a
  | _ => 0

/-- lua_tonumber restricted to numbers (all call sites in the source only
reach it with a number on top; string coercion is not modelled). -/
def tonumber : Value → Int
  | .number n => n
  | _ => 0

/-- Byte contents of a Lean string literal, for Lua string constants. -/
def strBytes (s : String) : List Nat := s.toList.map Char.toNat

/-- The metatable key consulted for special persistence (source default). -/
def persistKey : List Nat := strBytes "__persist"

/-- Source configuration defaults (static variables of the source). -/
def writeDebugInformation : Bool := true
def passIOToPersist : Bool := false

/-- Raw table read (lua_rawget): first pair with an equal key, else nil. -/
def tblRawget (t : TableData) (k : Value) : Value :=
  ((t.pairs.find? (fun e => e.1 = k)).map (fun e => e.2)).getD .nil

/-- Raw table write (lua_rawset with a non-nil value): replace the pair
with this key if present, else append it. -/
def tblRawset (t : TableData) (k v : Value) : TableData :=
  if (t.pairs.find? (fun e => e.1 = k)).isSome then
    { t with pairs := t.pairs.map (fun e => if e.1 = k then (k, v) else e) }
  else
    { t with pairs := t.pairs ++ [(k, v)] }

/-- Raw read through the store on a table-valued address; nil on anything
else (call sites guarantee a table). -/
def srawget (σ : Store) (a : Addr) (k : Value) : Value :=
  match sfind σ a with
  | some (.tbl t) => tblRawget t k
  | _ => .nil

/-- Raw write through the store on a table-valued address; no-op on
anything else (call sites guarantee a table). -/
def srawset (σ : Store) (a : Addr) (k v : Value) : Store :=
  match sfind σ a with
  | some (.tbl t) => supd σ a (.tbl (tblRawset t k v))
  | _ => σ

/-- lua_getmetatable for the two kinds the source consults it on. -/
def getmetatableV (σ : Store) : Value → Option Addr
  | .table a =>
    match sfind σ a with
    | some (.tbl t) => t.meta
    | _ => none
  | .userdata a =>
    match sfind σ a with
    | some (.udata u) => u.meta
    | _ => none
  | _ => none

/-- lua_setmetatable on a table or userdata value. -/
def setmetatableV (σ : Store) (v : Value) (m : Addr) : Store :=
  match v with
  | .table a =>
    match sfind σ a with
    | some (.tbl t) => supd σ a (.tbl { t with meta := some m })
    | _ => σ
  | .userdata a =>
    match sfind σ a with
    | some (.udata u) => supd σ a (.udata { u with meta := some m })
    | _ => σ
  | _ => σ

/-- luaL_len on a table built by rawseti with consecutive integer keys:
the first border, scanning 1, 2, ... -/
def tblLenGo (t : TableData) : Nat → Nat → Nat
  | 0, n => n
  | f + 1, n =>
    if tblRawget t (.number (Int.ofNat (n + 1))) = .nil then n
    else tblLenGo t f (n + 1)

def tblLen (t : TableData) : Nat := tblLenGo t (t.pairs.length + 1) 0

def stblLen (σ : Store) (a : Addr) : Nat :=
  match sfind σ a with
  | some (.tbl t) => tblLen t
  | _ => 0

/-- One past the largest address bound in the store: a fresh address. -/
def freshAddr (σ : Store) : Addr := (σ.map (fun e => e.1)).foldr max 0 + 1

/-- Errors of a persist or unpersist run.  err is an eris_error or
luaL_error with its (rendered) message, couldNotWrite and couldNotRead are
the writer/reader I/O failures, outOfFuel is the model-only fuel artifact,
and model marks states that are unreachable or undefined behavior in the
C source (documented at each use). -/
inductive Err where
  | outOfFuel
  | couldNotWrite
  | couldNotRead
  | err (msg : String)
  | model (msg : String)
deriving DecidableEq, Repr

instance instDecEqExcept {ε α : Type} [DecidableEq ε] [DecidableEq α] :
    DecidableEq (Except ε α) := fun a b =>
  match a, b with
  | .ok x, .ok y => if h : x = y then .isTrue (by rw [h]) else .isFalse (by simp [h])
  | .error x, .error y => if h : x = y then .isTrue (by rw [h]) else .isFalse (by simp [h])
  | .ok _, .error _ => .isFalse (by simp)
  | .error _, .ok _ => .isFalse (by simp)

/-- Stream tokens, one per WRITE_VALUE / WRITE of the source, tagged by the
primitive C type written. -/
inductive W where
  | wByte (b : Nat)
  | wInt (i : Int)
  | wShort (i : Int)
  | wUShort (n : Nat)
  | wSize (n : Nat)
  | wNum (n : Int)
  | wPtr (p : Nat)
  | wPtrdiff (i : Int)
  | wRaw (bytes : List Nat)
  | wCode (xs : List Nat)
  | wInts (xs : List Int)
deriving DecidableEq, Repr

/-- Writer-side state: the reference counter and the reference table
mapping keys (object identities or surrogates) to reference ids. -/
structure WState where
  refcount : Nat
  reftbl : List (Value × Nat)
deriving DecidableEq, Repr

/-- Reader-side state: the heap being built, the next fresh address, the
reference counter and the reference table mapping ids to objects. -/
structure RState where
  σ : Store
  next : Addr
  refcount : Nat
  reftbl : List (Nat × Value)
deriving DecidableEq, Repr

/-- Writer reftbl lookup (lua_rawget on the reftbl with a value key). -/
def lookupRef (rt : List (Value × Nat)) (k : Value) : Option Nat :=
  (rt.find? (fun e => e.1 = k)).map (fun e => e.2)

/-- Reader reftbl lookup (lua_rawgeti). -/
def lookupRT (rt : List (Nat × Value)) (i : Nat) : Option Value :=
  (rt.find? (fun e => e.1 = i)).map (fun e => e.2)

/-- Association-list lookup for a perms table content. -/
def lookupA (ps : List (Value × Value)) (k : Value) : Option Value :=
  (ps.find? (fun e => e.1 = k)).map (fun e => e.2)

/-- rawset semantics on a perms content list (for populateperms). -/
def assocSet (ps : List (Value × Value)) (k v : Value) : List (Value × Value) :=
  if (ps.find? (fun e => e.1 = k)).isSome then
    ps.map (fun e => if e.1 = k then (k, v) else e)
  else ps ++ [(k, v)]

/-- State of one persist run (PersistInfo of the source): the heap, the
contents of the perms table at stack slot 1, the address of the running
lua_State (pi-state L, for the running-thread check of p_thread), and the
lua_call oracle for user callbacks of special persistence. -/
structure PersistInfo where
  σ : Store
  permsW : List (Value × Value)
  self : Addr
  callW : Value → List Value → Except Err Value

/-- State of one unpersist run (UnpersistInfo of the source): the contents
of the reader perms table and the lua_call oracle used by u_special to run
the reconstruction closure (it may allocate, hence it transforms RState). -/
structure UnpersistInfo where
  permsR : List (Value × Value)
  callR : Value → List Value → RState → Except Err (Value × RState)

/-- Result of one writer routine: the new writer state and the emitted
token stream.  All WRITE callbacks of the convenience entry points append
to an in-memory buffer and only fail on size_t overflow, which cannot
happen over Nat, so writes are modelled as always succeeding. -/
abbrev EW := Except Err (WState × List W)

/-- Result of one reader routine: the value pushed, the new reader state
and the remaining stream. -/
abbrev ER := Except Err (Value × RState × List W)

/-- Pushes an object into the reference table when unpersisting
(registerobject of the source): the new entry maps the incremented
reference counter to the object. -/
def registerobject (rs : RState) (v : Value) : Nat × RState :=
  (rs.refcount + 1,
   { rs with refcount := rs.refcount + 1,
             reftbl := (rs.refcount + 1, v) :: rs.reftbl })

/-! Writer side: per-type codecs.  Simple codecs produce their token list
directly; composite codecs take the recursive continuations
(persistR is the recursive persist, keyedR the recursive persist_keyed). -/

def p_boolean (v : Value) : List W := [.wByte (if toboolean v then 1 else 0)]

def p_pointer (v : Value) : List W := [.wPtr (touserdata v)]

def p_number (v : Value) : List W := [.wNum (tonumber v)]

def p_string (v : Value) : List W :=
  match v with
  | .str s => [.wSize s.length, .wRaw s]
  | _ => []

/-- p_metatable: persist the metatable of the object on top, or nil. -/
def p_metatable (persistR : WState → Value → EW) (pi : PersistInfo)
    (ws : WState) (v : Value) : EW :=
  match getmetatableV pi.σ v with
  | some m => persistR ws (.table m)
  | none => persistR ws .nil

/-- The key/value loop of p_literaltable, in lua_next order. -/
def p_tpairs (persistR : WState → Value → EW) :
    List (Value × Value) → WState → EW
  | [], ws => .ok (ws, [])
  | (k, v) :: rest, ws => do
    let (ws, ko) ← persistR ws k
    let (ws, vo) ← persistR ws v
    let (ws, ro) ← p_tpairs persistR rest ws
    .ok (ws, ko ++ vo ++ ro)

/-- p_literaltable: all pairs, a nil sentinel, then the metatable slot. -/
def p_literaltable (persistR : WState → Value → EW) (pi : PersistInfo)
    (ws : WState) (v : Value) : EW :=
  match v with
  | .table a =>
    match sfind pi.σ a with
    | some (.tbl t) => do
      let (ws, po) ← p_tpairs persistR t.pairs ws
      let (ws, no) ← persistR ws .nil
      let (ws, mo) ← p_metatable persistR pi ws v
      .ok (ws, po ++ no ++ mo)
    | _ => .error (.model "p_literaltable: stack top is not a table")
  | _ => .error (.model "p_literaltable: stack top is not a table")

/-- p_literaluserdata: size-prefixed raw payload, then the metatable. -/
def p_literaluserdata (persistR : WState → Value → EW) (pi : PersistInfo)
    (ws : WState) (v : Value) : EW :=
  match v with
  | .userdata a =>
    match sfind pi.σ a with
    | some (.udata u) => do
      let (ws, mo) ← p_metatable persistR pi ws v
      .ok (ws, [.wSize u.payload.length, .wRaw u.payload] ++ mo)
    | _ => .error (.model "p_literaluserdata: stack top is not a userdata")
  | _ => .error (.model "p_literaluserdata: stack top is not a userdata")

/-- p_special: consult the __persist metafield; nil keeps the default
(literal allowed for tables, forbidden for userdata), a boolean sets it, a
function is invoked on the object and must return a closure which is then
persisted in place of the object (prefix byte 1; literal bodies get prefix
byte 0).  passIOToPersist is statically false, so the callback receives
only the object. -/
def p_special (persistR : WState → Value → EW) (pi : PersistInfo)
    (literal : WState → EW) (ws : WState) (v : Value) : EW :=
  let allowDefault := luaTypeOf v = LUA_TTABLE
  let finish : Bool → EW := fun allow =>
    if allow then
      (literal ws).map (fun r => (r.1, W.wByte 0 :: r.2))
    else if luaTypeOf v = LUA_TTABLE then
      .error (.err "attempt to persist forbidden table")
    else
      .error (.err "literally persisting userdata is disabled by default")
  match getmetatableV pi.σ v with
  | none => finish allowDefault
  | some mt =>
    let pv := srawget pi.σ mt (.str persistKey)
    if luaTypeOf pv = LUA_TNIL then finish allowDefault
    else if luaTypeOf pv = LUA_TBOOLEAN then finish (toboolean pv)
    else if luaTypeOf pv = LUA_TFUNCTION then do
      let res ←
        if passIOToPersist then
          pi.callW pv [v, .lightuserdata 0, .lightuserdata 0]
        else
          pi.callW pv [v]
      if luaTypeOf res = LUA_TFUNCTION then
        (persistR ws res).map (fun r => (r.1, W.wByte 1 :: r.2))
      else
        .error (.err "__persist did not return a function")
    else
      .error (.err "__persist not nil, boolean, or function")

def p_table (persistR : WState → Value → EW) (pi : PersistInfo)
    (ws : WState) (v : Value) : EW :=
  p_special persistR pi (fun ws => p_literaltable persistR pi ws v) ws v

def p_userdata (persistR : WState → Value → EW) (pi : PersistInfo)
    (ws : WState) (v : Value) : EW :=
  p_special persistR pi (fun ws => p_literaluserdata persistR pi ws v) ws v

/-- The constants loop of p_proto. -/
def p_protoks (persistR : WState → Value → EW) :
    List Value → WState → EW
  | [], ws => .ok (ws, [])
  | c :: rest, ws => do
    let (ws, co) ← persistR ws c
    let (ws, ro) ← p_protoks persistR rest ws
    .ok (ws, co ++ ro)

/-- The child-prototype loop of p_proto: children go through the keyed
path with their address as surrogate light userdata. -/
def p_protops (keyedR : WState → Value → Value → Int → EW) :
    List Addr → WState → EW
  | [], ws => .ok (ws, [])
  | c :: rest, ws => do
    let (ws, co) ← keyedR ws (.lightuserdata c) (.lightuserdata c) LUA_TPROTO
    let (ws, ro) ← p_protops keyedR rest ws
    .ok (ws, co ++ ro)

/-- The local-variable debug loop of p_proto. -/
def p_locvarsw (persistR : WState → Value → EW) :
    List LocVarData → WState → EW
  | [], ws => .ok (ws, [])
  | lv :: rest, ws => do
    let (ws, no) ← persistR ws (match lv.varname with
      | some s => .str s
      | none => .nil)
    let (ws, ro) ← p_locvarsw persistR rest ws
    .ok (ws, [.wInt lv.startpc, .wInt lv.endpc] ++ no ++ ro)

/-- The upvalue-name debug loop of p_proto. -/
def p_upvnamesw (persistR : WState → Value → EW) :
    List UpvalDesc → WState → EW
  | [], ws => .ok (ws, [])
  | u :: rest, ws => do
    let (ws, no) ← persistR ws (match u.name with
      | some s => .str s
      | none => .nil)
    let (ws, ro) ← p_upvnamesw persistR rest ws
    .ok (ws, no ++ ro)

/-- p_proto: general info, code, constants, child protos, upvalue
descriptors, then (writeDebugInformation being the source default true)
source name, line info, local variables and upvalue names.  The value on
the stack is the surrogate light userdata holding the Proto pointer. -/
def p_proto (persistR : WState → Value → EW)
    (keyedR : WState → Value → Value → Int → EW) (pi : PersistInfo)
    (ws : WState) (v : Value) : EW :=
  match v with
  | .lightuserdata a =>
    match sfind pi.σ a with
    | some (.prot p) => do
      let hd : List W :=
        [.wInt p.linedefined, .wInt p.lastlinedefined, .wByte p.numparams,
         .wByte p.is_vararg, .wByte p.maxstacksize,
         .wInt (Int.ofNat p.code.length), .wCode p.code,
         .wInt (Int.ofNat p.k.length)]
      let (ws, ko) ← p_protoks persistR p.k ws
      let (ws, po) ← p_protops keyedR p.p ws
      let uvhd : List W :=
        [.wInt (Int.ofNat p.upvalues.length)] ++
        (p.upvalues.map (fun u => [W.wByte u.instack, W.wByte u.idx])).flatten
      if writeDebugInformation = false then
        .ok (ws, hd ++ ko ++ [.wInt (Int.ofNat p.p.length)] ++ po ++ uvhd ++
                 [.wByte 0])
      else do
        let (ws, so) ← persistR ws (match p.source with
          | some s => .str s
          | none => .nil)
        let (ws, lvo) ← p_locvarsw persistR p.locvars ws
        let (ws, uno) ← p_upvnamesw persistR p.upvalues ws
        .ok (ws, hd ++ ko ++ [.wInt (Int.ofNat p.p.length)] ++ po ++ uvhd ++
                 [.wByte 1] ++ so ++
                 [.wInt (Int.ofNat p.lineinfo.length), .wInts p.lineinfo,
                  .wInt (Int.ofNat p.locvars.length)] ++ lvo ++ uno)
    | _ => .error (.model "p_proto: surrogate does not hold a prototype")
  | _ => .error (.model "p_proto: stack top is not the proto surrogate")

/-- p_upval: the upvalue body is just the persisted value (the surrogate
key was already consumed by persist_keyed). -/
def p_upval (persistR : WState → Value → EW) (ws : WState) (v : Value) : EW :=
  persistR ws v

/-- The upvalue-value loop of the C-closure branch of p_closure: C-closure
upvalues are always closed, their values are persisted inline. -/
def p_cclupvals (persistR : WState → Value → EW) :
    List Value → WState → EW
  | [], ws => .ok (ws, [])
  | u :: rest, ws => do
    let (ws, uo) ← persistR ws u
    let (ws, ro) ← p_cclupvals persistR rest ws
    .ok (ws, uo ++ ro)

/-- The upvalue loop of the Lua-closure branch of p_closure: each upvalue
value goes through the keyed path with the upvalue cell address
(lua_upvalueid) as surrogate, so shared upvalues share a reference id. -/
def p_lclupvals (keyedR : WState → Value → Value → Int → EW)
    (pi : PersistInfo) : List (Option Addr) → WState → EW
  | [], ws => .ok (ws, [])
  | some ua :: rest, ws =>
    (match sfind pi.σ ua with
     | some (.upv uval) => do
       let (ws, uo) ← keyedR ws uval (.lightuserdata ua) LUA_TUPVAL
       let (ws, ro) ← p_lclupvals keyedR pi rest ws
       .ok (ws, uo ++ ro)
     | _ => .error (.model "p_closure: upvalue cell missing from the heap"))
  | none :: _, _ => .error (.model "p_closure: NULL upvalue in a live closure")

/-- p_closure: a light C function cannot be persisted directly (it is only
reachable here when it was not in the perms table); a C closure is marked
with byte 1 and persisted as its upvalue count, its underlying C function
(which must resolve through the perms table) and its upvalue values; a Lua
closure is marked with byte 0 and persisted as its upvalue count, its
prototype (keyed by surrogate) and its keyed upvalues. -/
def p_closure (persistR : WState → Value → EW)
    (keyedR : WState → Value → Value → Int → EW) (pi : PersistInfo)
    (ws : WState) (v : Value) : EW :=
  match v with
  | .cfunction _ => .error (.err "Attempt to persist a light C function")
  | .closure a =>
    match sfind pi.σ a with
    | some (.clos (.c f upvals)) => do
      let (ws, fo) ← persistR ws (.cfunction f)
      let (ws, uo) ← p_cclupvals persistR upvals ws
      .ok (ws, [.wByte 1, .wByte upvals.length] ++ fo ++ uo)
    | some (.clos (.l proto upvals)) => do
      let (ws, po) ← keyedR ws (.lightuserdata proto) (.lightuserdata proto)
        LUA_TPROTO
      let (ws, uo) ← p_lclupvals keyedR pi upvals ws
      .ok (ws, [.wByte 0, .wByte upvals.length] ++ po ++ uo)
    | _ => .error (.model "p_closure: stack top is not a closure")
  | _ => .error (.err "Attempt to persist unknown function type")

/-- The stack-slot loop of p_thread. -/
def p_tstack (persistR : WState → Value → EW) :
    List Value → WState → EW
  | [], ws => .ok (ws, [])
  | o :: rest, ws => do
    let (ws, oo) ← persistR ws o
    let (ws, ro) ← p_tstack persistR rest ws
    .ok (ws, oo ++ ro)

/-- The call-info loop of p_thread, head to tail; the trailing byte of each
frame says whether it was the last one.  A frame that yielded from a debug
hook (CIST_HOOKYIELD) is rejected. -/
def p_tci (persistR : WState → Value → EW) :
    List CallInfoData → WState → EW
  | [], ws => .ok (ws, [])
  | ci :: rest, ws => do
    let hd : List W :=
      [.wSize ci.funcOff, .wSize ci.topOff, .wShort ci.nresults,
       .wByte ci.callstatus, .wPtrdiff ci.extra]
    if ci.callstatus &&& CIST_HOOKYIELD ≠ 0 then
      .error (.err "cannot persist yielded hooks")
    else do
      let (ws, body) ←
        if ci.callstatus &&& CIST_LUA ≠ 0 then
          match ci.u with
          | .lua baseOff savedpcOff =>
            pure (ws, [W.wSize baseOff, W.wSize savedpcOff])
          | .c _ _ _ => .error (.model "p_thread: Lua frame with a C union")
        else
          match ci.u with
          | .c status ctx k =>
            if ci.callstatus &&& (CIST_YPCALL ||| CIST_YIELDED) ≠ 0 then
              match k with
              | some f => do
                let (ws, ko) ← persistR ws (.cfunction f)
                pure (ws, [W.wByte status, W.wInt ctx] ++ ko)
              | none => .error (.model "p_thread: NULL continuation in a yielded C frame")
            else
              pure (ws, [W.wByte status])
          | .lua _ _ => .error (.model "p_thread: C frame with a Lua union")
      let last : List W := [.wByte (if rest.isEmpty then 1 else 0)]
      let (ws, ro) ← p_tci persistR rest ws
      .ok (ws, hd ++ body ++ last ++ ro)

/-- The open-upvalue loop of p_thread: for each open upvalue, the stack
offset it points at, then the pointed-at value via the keyed path with the
upvalue address as surrogate; terminated by the sentinel size. -/
def p_topenuv (keyedR : WState → Value → Value → Int → EW)
    (stack : List Value) : List (Nat × Addr) → WState → EW
  | [], ws => .ok (ws, [.wSize SIZE_SENTINEL])
  | (off, ua) :: rest, ws => do
    let (ws, uo) ← keyedR ws (stack.getD off .nil) (.lightuserdata ua)
      LUA_TUPVAL
    let (ws, ro) ← p_topenuv keyedR stack rest ws
    .ok (ws, W.wSize off :: uo ++ ro)

/-- p_thread: reject the running thread, then write status, C-call depth,
hook-allow flag, stack allocation size, used stack height, the live stack
slots, the call-info chain and the open-upvalue list.  The source checks
on errorJmp and errfunc are eris_assert, which the source compiles to a
no-op, so nothing is checked for them here; a hook is silently dropped. -/
def p_thread (persistR : WState → Value → EW)
    (keyedR : WState → Value → Value → Int → EW) (pi : PersistInfo)
    (ws : WState) (v : Value) : EW :=
  match v with
  | .thread a =>
    if a = pi.self then
      .error (.err "cannot persist currently running thread")
    else
      match sfind pi.σ a with
      | some (.thrd t) => do
        let hd : List W :=
          [.wByte t.status, .wUShort t.nCcalls, .wByte t.allowhook,
           .wInt (Int.ofNat t.stacksize), .wSize t.stack.length]
        let (ws, so) ← p_tstack persistR t.stack ws
        let (ws, co) ← p_tci persistR t.callinfo ws
        let (ws, uo) ← p_topenuv keyedR t.stack t.openupvals ws
        .ok (ws, hd ++ so ++ co ++ uo)
      | _ => .error (.model "p_thread: stack top is not a thread")
  | _ => .error (.model "p_thread: stack top is not a thread")

/-- persist_typed: write the type tag, then dispatch to the type codec. -/
def persist_typed (persistR : WState → Value → EW)
    (keyedR : WState → Value → Value → Int → EW) (pi : PersistInfo)
    (ws : WState) (v : Value) (type : Int) : EW :=
  let withTag : EW → EW := fun r => r.map (fun x => (x.1, W.wInt type :: x.2))
  if type = LUA_TBOOLEAN then .ok (ws, .wInt type :: p_boolean v)
  else if type = LUA_TLIGHTUSERDATA then .ok (ws, .wInt type :: p_pointer v)
  else if type = LUA_TNUMBER then .ok (ws, .wInt type :: p_number v)
  else if type = LUA_TSTRING then .ok (ws, .wInt type :: p_string v)
  else if type = LUA_TTABLE then withTag (p_table persistR pi ws v)
  else if type = LUA_TFUNCTION then withTag (p_closure persistR keyedR pi ws v)
  else if type = LUA_TUSERDATA then withTag (p_userdata persistR pi ws v)
  else if type = LUA_TTHREAD then withTag (p_thread persistR keyedR pi ws v)
  else if type = LUA_TPROTO then withTag (p_proto persistR keyedR pi ws v)
  else if type = LUA_TUPVAL then withTag (p_upval persistR ws v)
  else .error (.err "trying to persist unknown type")

/-- persist_keyedA: look the key up in the writer reftbl; if present, emit
only the offset reference id; otherwise bind the key to a fresh id first,
then consult the perms table under the key: on a hit emit the PERMANENT
tag, the original Lua type of the object and the persisted permanent key,
otherwise delegate to persist_typed. -/
def persist_keyedA (persistR : WState → Value → EW)
    (typedR : WState → Value → Int → EW) (pi : PersistInfo) (ws : WState)
    (obj key : Value) (type : Int) : EW :=
  match lookupRef ws.reftbl key with
  | some reference =>
    .ok (ws, [.wInt (Int.ofNat reference + ERIS_REFERENCE_OFFSET)])
  | none =>
    let ws1 : WState :=
      { refcount := ws.refcount + 1,
        reftbl := (key, ws.refcount + 1) :: ws.reftbl }
    match lookupA pi.permsW key with
    | some permkey =>
      (persistR ws1 permkey).map (fun r =>
        (r.1, W.wInt ERIS_PERMANENT :: W.wInt (luaTypeOf obj) :: r.2))
    | none => typedR ws1 obj type

/-- persistA: nil writes only its tag; booleans, light userdata and numbers
are written inline through persist_typed (whose other branches are
unreachable for these tags, so their bodies appear inline here); all other
values are self-keyed through persist_keyed. -/
def persistA (keyedR : WState → Value → Value → Int → EW) (ws : WState)
    (v : Value) : EW :=
  let type := luaTypeOf v
  if type = LUA_TNIL then .ok (ws, [.wInt type])
  else if type = LUA_TBOOLEAN then .ok (ws, .wInt type :: p_boolean v)
  else if type = LUA_TLIGHTUSERDATA then .ok (ws, .wInt type :: p_pointer v)
  else if type = LUA_TNUMBER then .ok (ws, .wInt type :: p_number v)
  else keyedR ws v v type

/-- persist_keyed with fuel: the single writer-side recursion knot (every
recursion cycle of the source writer passes through persist_keyed). -/
def persist_keyed : Nat → PersistInfo → WState → Value → Value → Int → EW
  | 0, _, _, _, _, _ => .error .outOfFuel
  | n + 1, pi, ws, obj, key, type =>
    persist_keyedA (persistA (persist_keyed n pi))
      (persist_typed (persistA (persist_keyed n pi)) (persist_keyed n pi) pi)
      pi ws obj key type

/-- Top-level delegating persist function. -/
def persist (n : Nat) (pi : PersistInfo) (ws : WState) (v : Value) : EW :=
  persistA (persist_keyed n pi) ws v

/-! Reader side.  Primitive reads consume one token of the matching
primitive type; a mismatched token is the stream error (the C reader would
reinterpret raw bytes; writer-produced streams always match). -/

def readByte : List W → Except Err (Nat × List W)
  | .wByte b :: s => .ok (b, s)
  | _ => .error .couldNotRead

def readInt : List W → Except Err (Int × List W)
  | .wInt i :: s => .ok (i, s)
  | _ => .error .couldNotRead

def readShort : List W → Except Err (Int × List W)
  | .wShort i :: s => .ok (i, s)
  | _ => .error .couldNotRead

def readUShort : List W → Except Err (Nat × List W)
  | .wUShort n :: s => .ok (n, s)
  | _ => .error .couldNotRead

def readSize : List W → Except Err (Nat × List W)
  | .wSize n :: s => .ok (n, s)
  | _ => .error .couldNotRead

def readNum : List W → Except Err (Int × List W)
  | .wNum n :: s => .ok (n, s)
  | _ => .error .couldNotRead

def readPtr : List W → Except Err (Nat × List W)
  | .wPtr p :: s => .ok (p, s)
  | _ => .error .couldNotRead

def readPtrdiff : List W → Except Err (Int × List W)
  | .wPtrdiff i :: s => .ok (i, s)
  | _ => .error .couldNotRead

def readRaw (n : Nat) : List W → Except Err (List Nat × List W)
  | .wRaw bs :: s => if bs.length = n then .ok (bs, s) else .error .couldNotRead
  | _ => .error .couldNotRead

def readCode (n : Nat) : List W → Except Err (List Nat × List W)
  | .wCode xs :: s => if xs.length = n then .ok (xs, s) else .error .couldNotRead
  | _ => .error .couldNotRead

def readInts (n : Nat) : List W → Except Err (List Int × List W)
  | .wInts xs :: s => if xs.length = n then .ok (xs, s) else .error .couldNotRead
  | _ => .error .couldNotRead

/-- copytstring: lua_tolstring of the value on top, interned as a TString.
On nil, lua_tolstring returns NULL with length 0 and eris_newlstr then
interns the empty string.  Number coercion is never exercised by
writer-produced streams and is not modelled. -/
def copytstring : Value → Except Err (Option (List Nat))
  | .str s => .ok (some s)
  | .nil => .ok (some [])
  | _ => .error (.model "copytstring: value is not a string")

/-- u_boolean, u_pointer, u_number: the simple inline codecs. -/
def u_boolean (s : List W) : Except Err (Value × List W) :=
  (readByte s).map (fun r => (.boolean (r.1 ≠ 0), r.2))

def u_pointer (s : List W) : Except Err (Value × List W) :=
  (readPtr s).map (fun r => (.lightuserdata r.1, r.2))

def u_number (s : List W) : Except Err (Value × List W) :=
  (readNum s).map (fun r => (.number r.1, r.2))

/-- u_string: size-prefixed bytes; the string is registered. -/
def u_string (rs : RState) (s : List W) : ER := do
  let (len, s) ← readSize s
  let (bytes, s) ← readRaw len s
  let (_, rs) := registerobject rs (.str bytes)
  .ok (.str bytes, rs, s)

/-- u_permanent: read the original type tag, reserve a reference (the
source registers whatever happens to be on the stack; modelled as nil),
unpersist the permanent key, look it up in the reader perms table, fail if
absent or of the wrong type, then rewrite the reserved reftbl slot. -/
def u_permanentA (recur : RState → List W → Option Value → ER)
    (ui : UnpersistInfo) (rs : RState) (s : List W) : ER := do
  let (type, s) ← readInt s
  let (reference, rs) := registerobject rs .nil
  let (permkey, rs, s) ← recur rs s none
  match lookupA ui.permsR permkey with
  | none => .error (.err "bad permanent value (no value)")
  | some obj =>
    if luaTypeOf obj = type then
      let rs := { rs with reftbl := (reference, obj) :: rs.reftbl }
      .ok (obj, rs, s)
    else
      .error (.err ("bad permanent value (" ++ typename type ++
        " expected, got " ++ typename (luaTypeOf obj) ++ ")"))

/-- u_metatable: unpersist the metatable slot of the object on top and
install it if it is a table; nil means no metatable; anything else is a
stream error. -/
def u_metatableA (recur : RState → List W → Option Value → ER)
    (target : Value) (rs : RState) (s : List W) :
    Except Err (RState × List W) := do
  let (mt, rs, s) ← recur rs s none
  match mt with
  | .table m => .ok ({ rs with σ := setmetatableV rs.σ target m }, s)
  | .nil => .ok (rs, s)
  | _ => .error (.err "bad metatable, not nil or table")

/-- The pair loop of u_literaltable; loop fuel is bounded by the stream
length (each iteration consumes at least the key's framing token). -/
def u_littpairs (recur : RState → List W → Option Value → ER) (e : Addr) :
    Nat → RState → List W → Except Err (RState × List W)
  | 0, _, _ => .error .outOfFuel
  | f + 1, rs, s => do
    let (key, rs, s) ← recur rs s none
    if key = .nil then .ok (rs, s)
    else do
      let (val, rs, s) ← recur rs s none
      if val = .nil then .error (.err "bad table value, got a nil value")
      else u_littpairs recur e f { rs with σ := srawset rs.σ e key val } s

/-- u_literaltable: create the table and register it immediately (cycles
through keys, values or the metatable then resolve to it), then consume
pairs until the nil sentinel key, then the metatable slot. -/
def u_literaltable (recur : RState → List W → Option Value → ER)
    (rs : RState) (s : List W) : ER :=
  let e := rs.next
  let rs := { rs with σ := supd rs.σ e (.tbl ⟨[], none⟩), next := e + 1 }
  let (_, rs) := registerobject rs (.table e)
  do
    let (rs, s) ← u_littpairs recur e (s.length + 1) rs s
    let (rs, s) ← u_metatableA recur (.table e) rs s
    .ok (.table e, rs, s)

/-- u_literaluserdata: allocate the block, register it, then metatable. -/
def u_literaluserdata (recur : RState → List W → Option Value → ER)
    (rs : RState) (s : List W) : ER := do
  let (size, s) ← readSize s
  let (payload, s) ← readRaw size s
  let e := rs.next
  let rs := { rs with σ := supd rs.σ e (.udata ⟨payload, none⟩), next := e + 1 }
  let (_, rs) := registerobject rs (.userdata e)
  let (rs, s) ← u_metatableA recur (.userdata e) rs s
  .ok (.userdata e, rs, s)

/-- u_special: on the special marker byte, reserve a reftbl entry first
(temporarily nil), unpersist the reconstruction closure, fail unless it is
a function, invoke it (passIOToPersist is statically false, so with no
arguments), type-check the result against the original kind tag, and
rewrite the reserved slot; otherwise read the literal body. -/
def u_special (recur : RState → List W → Option Value → ER)
    (ui : UnpersistInfo) (type : Int)
    (literal : RState → List W → ER) (rs : RState) (s : List W) : ER := do
  let (b, s) ← readByte s
  if b ≠ 0 then do
    let (reference, rs) := registerobject rs .nil
    let (spf, rs, s) ← recur rs s none
    if luaTypeOf spf = LUA_TFUNCTION then do
      let (obj, rs) ←
        if passIOToPersist then ui.callR spf [.lightuserdata 0] rs
        else ui.callR spf [] rs
      if luaTypeOf obj = type then
        let rs := { rs with reftbl := (reference, obj) :: rs.reftbl }
        .ok (obj, rs, s)
      else
        .error (.err ("bad unpersist function (" ++ typename type ++
          " expected, returned " ++ typename (luaTypeOf obj) ++ ")"))
    else .error (.err "invalid restore function")
  else literal rs s

def u_table (recur : RState → List W → Option Value → ER)
    (ui : UnpersistInfo) (rs : RState) (s : List W) : ER :=
  u_special recur ui LUA_TTABLE (u_literaltable recur) rs s

def u_userdata (recur : RState → List W → Option Value → ER)
    (ui : UnpersistInfo) (rs : RState) (s : List W) : ER :=
  u_special recur ui LUA_TUSERDATA (u_literaluserdata recur) rs s

/-- A fresh prototype as allocated by eris_newproto (all fields zeroed). -/
def emptyProto : ProtoData := ⟨0, 0, 0, 0, 0, [], [], [], [], none, [], []⟩

/-- A sequence of n recursively unpersisted values (the constants loop of
u_proto and the stack loop of u_thread). -/
def u_valseq (recur : RState → List W → Option Value → ER) :
    Nat → RState → List W → Except Err (List Value × RState × List W)
  | 0, rs, s => .ok ([], rs, s)
  | n + 1, rs, s => do
    let (v, rs, s) ← recur rs s none
    let (vs, rs, s) ← u_valseq recur n rs s
    .ok (v :: vs, rs, s)

/-- The child-prototype loop of u_proto: allocate a fresh shell, unpersist
into it, and keep whatever prototype comes back (the original one if this
child had been unpersisted before; the shell then becomes garbage). -/
def u_protops (recur : RState → List W → Option Value → ER) :
    Nat → RState → List W → Except Err (List Addr × RState × List W)
  | 0, rs, s => .ok ([], rs, s)
  | n + 1, rs, s => do
    let cpa := rs.next
    let rs := { rs with σ := supd rs.σ cpa (.prot emptyProto), next := cpa + 1 }
    let (pv, rs, s) ← recur rs s (some (.lightuserdata cpa))
    let cp := touserdata pv
    let (cps, rs, s) ← u_protops recur n rs s
    .ok (cp :: cps, rs, s)

/-- The upvalue-descriptor loop of u_proto (names are zeroed here and
filled by the debug section). -/
def u_upvdescs : Nat → List W → Except Err (List UpvalDesc × List W)
  | 0, s => .ok ([], s)
  | n + 1, s => do
    let (ins, s) ← readByte s
    let (idx, s) ← readByte s
    let (rest, s) ← u_upvdescs n s
    .ok (⟨ins, idx, none⟩ :: rest, s)

/-- The local-variable debug loop of u_proto. -/
def u_locvarsr (recur : RState → List W → Option Value → ER) :
    Nat → RState → List W → Except Err (List LocVarData × RState × List W)
  | 0, rs, s => .ok ([], rs, s)
  | n + 1, rs, s => do
    let (sp, s) ← readInt s
    let (ep, s) ← readInt s
    let (nv, rs, s) ← recur rs s none
    let vn ← copytstring nv
    let (rest, rs, s) ← u_locvarsr recur n rs s
    .ok (⟨sp, ep, vn⟩ :: rest, rs, s)

/-- The upvalue-name debug loop of u_proto. -/
def u_upvnamesr (recur : RState → List W → Option Value → ER) :
    List UpvalDesc → RState → List W →
    Except Err (List UpvalDesc × RState × List W)
  | [], rs, s => .ok ([], rs, s)
  | d :: rest, rs, s => do
    let (nv, rs, s) ← recur rs s none
    let nm ← copytstring nv
    let (ds, rs, s) ← u_upvnamesr recur rest rs s
    .ok ({ d with name := nm } :: ds, rs, s)

/-- u_proto: the mirror of p_proto.  The caller passes a freshly allocated
prototype shell as a light userdata (GC-anchoring in the source); the
shell surrogate is registered immediately, fields are then filled from the
stream.  The source assigns each field as it is read and nothing observes
the shell contents during the reads (only the surrogate value is in the
reftbl), so the model installs the filled prototype in one store update at
the end.  On the no-debug path the source returns without the final
duplicate push, unbalancing the stack contract of unpersist; with the
default writer configuration that path never occurs on writer-produced
streams and is modelled as an error. -/
def u_proto (recur : RState → List W → Option Value → ER)
    (rs : RState) (s : List W) (shell : Option Value) : ER :=
  match shell with
  | some (.lightuserdata pa) =>
    let (_, rs) := registerobject rs (.lightuserdata pa)
    do
      let (ld, s) ← readInt s
      let (lld, s) ← readInt s
      let (np, s) ← readByte s
      let (iv, s) ← readByte s
      let (mss, s) ← readByte s
      let (szc, s) ← readInt s
      let (code, s) ← readCode szc.toNat s
      let (szk, s) ← readInt s
      let (ks, rs, s) ← u_valseq recur szk.toNat rs s
      let (szp, s) ← readInt s
      let (cps, rs, s) ← u_protops recur szp.toNat rs s
      let (szu, s) ← readInt s
      let (uds, s) ← u_upvdescs szu.toNat s
      let (dbg, s) ← readByte s
      if dbg = 0 then
        .error (.model "u_proto: the no-debug path misses the final push")
      else do
        let (sv, rs, s) ← recur rs s none
        let src ← copytstring sv
        let (szli, s) ← readInt s
        let (lineinfo, s) ← readInts szli.toNat s
        let (szlv, s) ← readInt s
        let (lvs, rs, s) ← u_locvarsr recur szlv.toNat rs s
        let (uds, rs, s) ← u_upvnamesr recur uds rs s
        let pd : ProtoData :=
          ⟨ld, lld, np, iv, mss, code, ks, cps, uds, src, lineinfo, lvs⟩
        let rs := { rs with σ := supd rs.σ pa (.prot pd) }
        .ok (.lightuserdata pa, rs, s)
  | _ => .error (.model "u_proto: the proto shell must be on the stack")

/-- u_upval: build the three-slot upvalue record table (slot 1 the value,
slot 2 the reconstructed upvalue cell pointer, slots 3 and up the
back-pointers), register it, then unpersist the value into slot 1. -/
def u_upval (recur : RState → List W → Option Value → ER)
    (rs : RState) (s : List W) : ER :=
  let e := rs.next
  let rs := { rs with σ := supd rs.σ e (.tbl ⟨[], none⟩), next := e + 1 }
  let (_, rs) := registerobject rs (.table e)
  do
    let (obj, rs, s) ← recur rs s none
    let rs := { rs with σ := srawset rs.σ e (.number 1) obj }
    .ok (.table e, rs, s)

/-- Store update helpers for the pointer writes of u_closure and
u_thread. -/
def setCClUpval (σ : Store) (c : Addr) (k : Nat) (v : Value) : Store :=
  match sfind σ c with
  | some (.clos (.c f upvals)) => supd σ c (.clos (.c f (upvals.set k v)))
  | _ => σ

def setLClUpval (σ : Store) (c : Addr) (k : Nat) (ua : Addr) : Store :=
  match sfind σ c with
  | some (.clos (.l proto upvals)) =>
    supd σ c (.clos (.l proto (upvals.set k (some ua))))
  | _ => σ

def setLClProto (σ : Store) (c : Addr) (pa : Addr) : Store :=
  match sfind σ c with
  | some (.clos (.l _ upvals)) => supd σ c (.clos (.l pa upvals))
  | _ => σ

def stblPairsLen (σ : Store) (a : Addr) : Nat :=
  match sfind σ a with
  | some (.tbl t) => t.pairs.length
  | _ => 0

/-- The search-from-slot-3 insertion of a back-pointer when the record is
not fully initialized yet (a cycle ran through the upvalue). -/
def uvinsert (σ : Store) (rt : Addr) (ptr : Value) : Nat → Nat → Store
  | 0, _ => σ
  | f + 1, i =>
    if srawget σ rt (.number (Int.ofNat i)) = .nil then
      srawset σ rt (.number (Int.ofNat i)) ptr
    else uvinsert σ rt ptr f (i + 1)

/-- The upvalue loop of the C-closure branch of u_closure. -/
def u_cclupvals (recur : RState → List W → Option Value → ER) (e : Addr) :
    Nat → Nat → RState → List W → Except Err (RState × List W)
  | 0, _, rs, s => .ok (rs, s)
  | r + 1, k, rs, s => do
    let (obj, rs, s) ← recur rs s none
    u_cclupvals recur e r (k + 1) { rs with σ := setCClUpval rs.σ e k obj } s

/-- The upvalue loop of the Lua-closure branch of u_closure, slot by slot:
unpersist the upvalue record; if its slot 2 already holds an upvalue cell
(an earlier closure got there first) share that cell, otherwise allocate a
fresh closed cell and store it into slot 2; in either case overwrite the
cell value from slot 1 (a cycle may have installed a temporary nil), and
append the address of this closure's upvalue slot as a back-pointer (slot
3 and up) for the pointer patching of u_thread. -/
def u_lclupvals (recur : RState → List W → Option Value → ER) (e : Addr) :
    Nat → Nat → RState → List W → Except Err (RState × List W)
  | 0, _, rs, s => .ok (rs, s)
  | r + 1, k, rs, s => do
    let (tv, rs, s) ← recur rs s none
    match tv with
    | .table rt => do
      let (ua, rs) ←
        match srawget rs.σ rt (.number 2) with
        | .nil =>
          let ua := rs.next
          let σ1 := supd rs.σ ua (.upv .nil)
          let σ2 := srawset σ1 rt (.number 2) (.lightuserdata ua)
          pure (ua, { rs with σ := σ2, next := ua + 1 })
        | .lightuserdata ua => pure (ua, rs)
        | _ => .error (.model "u_closure: record slot 2 is not a pointer")
      let rs := { rs with σ := setLClUpval rs.σ e k ua }
      let val := srawget rs.σ rt (.number 1)
      let rs := { rs with σ := supd rs.σ ua (.upv val) }
      let ptr := Value.lightuserdata (Nat.pair e k)
      let len := stblLen rs.σ rt
      let rs :=
        if len ≥ 2 then
          { rs with σ := srawset rs.σ rt (.number (Int.ofNat (len + 1))) ptr }
        else
          { rs with σ := uvinsert rs.σ rt ptr (stblPairsLen rs.σ rt + 4) 3 }
      u_lclupvals recur e r (k + 1) rs s
    | _ => .error (.model "u_closure: upvalue record is not a table")

/-- u_closure: C closures are rebuilt from the perms-resolved C function
with nil upvalues first (registered before the upvalues are read, for
cycles), then the upvalues are filled in; Lua closures are allocated with
nil upvalues, registered, their prototype read through a fresh shell (kept
only if no earlier prototype was registered), then the upvalue records are
consumed slot by slot. -/
def u_closure (recur : RState → List W → Option Value → ER)
    (rs : RState) (s : List W) : ER := do
  let (isC, s) ← readByte s
  let (nups, s) ← readByte s
  if isC ≠ 0 then do
    let (cf, rs, s) ← recur rs s none
    match cf with
    | .cfunction f =>
      let e := rs.next
      let rs := { rs with
        σ := supd rs.σ e (.clos (.c f (List.replicate nups .nil))),
        next := e + 1 }
      let (_, rs) := registerobject rs (.closure e)
      let (rs, s) ← u_cclupvals recur e nups 0 rs s
      .ok (.closure e, rs, s)
    | _ => .error (.model "u_closure: lua_tocfunction gives NULL here")
  else
    let e := rs.next
    -- eris_newLclosure: nups NULL upvalues; the prototype field is assigned
    -- right below (the placeholder 0 mirrors the transient NULL)
    let rs := { rs with
      σ := supd rs.σ e (.clos (.l 0 (List.replicate nups none))),
      next := e + 1 }
    let (_, rs) := registerobject rs (.closure e)
    let pa := rs.next
    let rs := { rs with σ := supd rs.σ pa (.prot emptyProto), next := pa + 1 }
    let rs := { rs with σ := setLClProto rs.σ e pa }
    do
      let (pv, rs, s) ← recur rs s (some (.lightuserdata pa))
      let p := touserdata pv
      let rs := if p ≠ pa then { rs with σ := setLClProto rs.σ e p } else rs
      let (rs, s) ← u_lclupvals recur e nups 0 rs s
      .ok (.closure e, rs, s)

/-- lua_iscfunction plus lua_tocfunction: a light C function or a C
closure yields the underlying C function pointer. -/
def iscfunction (σ : Store) : Value → Option Nat
  | .cfunction f => some f
  | .closure a =>
    match sfind σ a with
    | some (.clos (.c f _)) => some f
    | _ => none
  | _ => none

/-- The call-info loop of u_thread, extending the frame chain until the
trailing is-last byte; loop fuel is bounded by the stream length. -/
def u_tci (recur : RState → List W → Option Value → ER) :
    Nat → RState → List W →
    Except Err (List CallInfoData × RState × List W)
  | 0, _, _ => .error .outOfFuel
  | f + 1, rs, s => do
    let (funcOff, s) ← readSize s
    let (topOff, s) ← readSize s
    let (nres, s) ← readShort s
    let (cst, s) ← readByte s
    let (extra, s) ← readPtrdiff s
    let (u, rs, s) ←
      if cst &&& CIST_LUA ≠ 0 then do
        let (baseOff, s) ← readSize s
        let (pcOff, s) ← readSize s
        pure (CallInfoU.lua baseOff pcOff, rs, s)
      else do
        let (status, s) ← readByte s
        if cst &&& (CIST_YPCALL ||| CIST_YIELDED) ≠ 0 then do
          let (ctx, s) ← readInt s
          let (kv, rs, s) ← recur rs s none
          match iscfunction rs.σ kv with
          | some kf => pure (CallInfoU.c status ctx (some kf), rs, s)
          | none => .error (.err "bad C continuation function")
        else
          pure (CallInfoU.c status 0 none, rs, s)
    let ci : CallInfoData := ⟨funcOff, topOff, nres, cst, extra, u⟩
    let (flag, s) ← readByte s
    if flag ≠ 0 then .ok ([ci], rs, s)
    else do
      let (cis, rs, s) ← u_tci recur f rs s
      .ok (ci :: cis, rs, s)

def lookupNatA (ps : List (Nat × Addr)) (k : Nat) : Option Addr :=
  (ps.find? (fun e => e.1 = k)).map (fun e => e.2)

/-- Patch all back-pointers (slots 3..n of the record) to the given open
upvalue cell. -/
def patchbp (σ : Store) (rt : Addr) (nuv : Addr) (n : Nat) : Store :=
  (List.range' 3 (n - 2)).foldl (fun σ i =>
    match srawget σ rt (.number (Int.ofNat i)) with
    | .lightuserdata ptr =>
      setLClUpval σ (Nat.unpair ptr).1 (Nat.unpair ptr).2 nuv
    | _ => σ) σ

/-- The open-upvalue loop of u_thread: read the stack offset (the sentinel
terminates), unpersist the record, find or create the thread's open
upvalue at that offset (eris_findupval; the cell of the model stores a
copy of the slot value where the C cell aliases the stack slot), patch the
back-pointers if an earlier closure had bound a closed cell, and store the
open cell into record slot 2. -/
def u_topenuv (recur : RState → List W → Option Value → ER) (e : Addr) :
    Nat → RState → List W → Except Err (RState × List W)
  | 0, _, _ => .error .outOfFuel
  | f + 1, rs, s => do
    let (off, s) ← readSize s
    if off = SIZE_SENTINEL then .ok (rs, s)
    else do
      let (tv, rs, s) ← recur rs s none
      match tv with
      | .table rt =>
        let (nuv, rs) :=
          match sfind rs.σ e with
          | some (.thrd t) =>
            match lookupNatA t.openupvals off with
            | some ua => (ua, rs)
            | none =>
              let ua := rs.next
              let σ1 := supd rs.σ ua (.upv (t.stack.getD off .nil))
              let σ2 := supd σ1 e
                (.thrd { t with openupvals := t.openupvals ++ [(off, ua)] })
              (ua, { rs with σ := σ2, next := ua + 1 })
          | _ => (0, rs)
        let rs :=
          match srawget rs.σ rt (.number 2) with
          | .nil => rs
          | _ => { rs with σ := patchbp rs.σ rt nuv (stblLen rs.σ rt) }
        let rs := { rs with σ := srawset rs.σ rt (.number 2) (.lightuserdata nuv) }
        u_topenuv recur e f rs s
      | _ => .error (.model "u_thread: upvalue record is not a table")

/-- A fresh thread as created by lua_newthread (fields are overwritten by
the reads that follow). -/
def emptyThread : ThreadData := ⟨0, 0, 0, false, false, 0, 0, [], [], []⟩

/-- u_thread: create and register a fresh thread, read the header fields,
rebuild the stack slot by slot, then the call-info chain, then reopen the
open upvalues. -/
def u_thread (recur : RState → List W → Option Value → ER)
    (rs : RState) (s : List W) : ER :=
  let e := rs.next
  let rs := { rs with σ := supd rs.σ e (.thrd emptyThread), next := e + 1 }
  let (_, rs) := registerobject rs (.thread e)
  do
    let (status, s) ← readByte s
    let (ncc, s) ← readUShort s
    let (ah, s) ← readByte s
    let (ssize, s) ← readInt s
    let (topOff, s) ← readSize s
    let (stackvals, rs, s) ← u_valseq recur topOff rs s
    let rs := { rs with σ := supd rs.σ e (.thrd { emptyThread with
      status := status, nCcalls := ncc, allowhook := ah,
      stacksize := ssize.toNat, stack := stackvals }) }
    let (cis, rs, s) ← u_tci recur (s.length + 1) rs s
    let σci : Store :=
      match sfind rs.σ e with
      | some (.thrd t) => supd rs.σ e (.thrd { t with callinfo := cis })
      | _ => rs.σ
    let rs := { rs with σ := σci }
    let (rs, s) ← u_topenuv recur e (s.length + 1) rs s
    .ok (.thread e, rs, s)

/-- unpersistA: read the framing word; above the reference offset it is a
reference resolved through the reftbl (a dangling one is an error), the
PERMANENT tag goes to u_permanent, and a kind tag dispatches to the type
codec.  The shell argument models the value the caller left on the stack
below (only u_proto consumes it). -/
def unpersistA (recur : RState → List W → Option Value → ER)
    (ui : UnpersistInfo) (rs : RState) (s : List W)
    (shell : Option Value) : ER := do
  let (tOrR, s) ← readInt s
  if tOrR > ERIS_REFERENCE_OFFSET then
    let reference := (tOrR - ERIS_REFERENCE_OFFSET).toNat
    -- lua_rawgeti pushes nil for an absent slot, and the nil check cannot
    -- distinguish that from a slot still holding the reserved nil
    -- placeholder of u_special or u_permanent: both are the error.
    match (lookupRT rs.reftbl reference).getD .nil with
    | .nil => .error (.err ("invalid reference #" ++ toString reference))
    | v => .ok (v, rs, s)
  else if tOrR = LUA_TNIL then .ok (.nil, rs, s)
  else if tOrR = LUA_TBOOLEAN then
    (u_boolean s).map (fun r => (r.1, rs, r.2))
  else if tOrR = LUA_TLIGHTUSERDATA then
    (u_pointer s).map (fun r => (r.1, rs, r.2))
  else if tOrR = LUA_TNUMBER then
    (u_number s).map (fun r => (r.1, rs, r.2))
  else if tOrR = LUA_TSTRING then u_string rs s
  else if tOrR = LUA_TTABLE then u_table recur ui rs s
  else if tOrR = LUA_TFUNCTION then u_closure recur rs s
  else if tOrR = LUA_TUSERDATA then u_userdata recur ui rs s
  else if tOrR = LUA_TTHREAD then u_thread recur rs s
  else if tOrR = LUA_TPROTO then u_proto recur rs s shell
  else if tOrR = LUA_TUPVAL then u_upval recur rs s
  else if tOrR = ERIS_PERMANENT then u_permanentA recur ui rs s
  else .error (.err ("trying to unpersist unknown type " ++ toString tOrR))

/-- unpersist with fuel: the single reader-side recursion knot. -/
def unpersist : Nat → UnpersistInfo → RState → List W → Option Value → ER
  | 0, _, _, _, _ => .error .outOfFuel
  | n + 1, ui, rs, s, shell => unpersistA (unpersist n ui) ui rs s shell

/-! Library entry points. -/

/-- Modelled from the spec: populateperms calls the patched
standard-library hooks (eris_permbaselib and friends, external to this
repository), which rawset entries for internal C functions into the perms
table; those entries are taken as the parameter list here and merged with
rawset semantics.  The source mutates the perms table itself; the model
folds the merge into the run-local perms contents (a persisted graph
containing the perms table itself would observe the difference; no theorem
exercises that). -/
def populateperms (internal : List (Value × Value))
    (perms : List (Value × Value)) : List (Value × Value) :=
  internal.foldl (fun ps e => assocSet ps e.1 e.2) perms

def emptyTable : Obj := .tbl ⟨[], none⟩

/-- unchecked_persist: fresh reftbl (and no path table: generatePath is the
source default 0), populate the perms, then persist the root object.  The
writer callback is the in-memory buffer writer, which cannot fail over
Nat sizes, so the result is just the emitted stream. -/
def unchecked_persist (fuel : Nat) (σ : Store) (self : Addr)
    (callW : Value → List Value → Except Err Value)
    (internal : List (Value × Value)) (permsA : Addr) (v : Value) :
    Except Err (List W) :=
  match sfind σ permsA with
  | some (.tbl pt) =>
    let pi : PersistInfo := ⟨σ, populateperms internal pt.pairs, self, callW⟩
    (persist fuel pi ⟨0, []⟩ v).map (fun r => r.2)
  | _ => .error (.model "unchecked_persist: perms is not a table")

/-- unchecked_unpersist: fresh reftbl, populate the perms, then unpersist
one value from the stream.  The gc stop/restart/collect calls around the
read concern the collector only and have no observable effect here. -/
def unchecked_unpersist (fuel : Nat) (σ : Store)
    (callR : Value → List Value → RState → Except Err (Value × RState))
    (internal : List (Value × Value)) (permsA : Addr) (s : List W) :
    Except Err (Value × RState) :=
  match sfind σ permsA with
  | some (.tbl pt) =>
    let ui : UnpersistInfo := ⟨populateperms internal pt.pairs, callR⟩
    (unpersist fuel ui ⟨σ, freshAddr σ, 0, []⟩ s none).map
      (fun r => (r.1, r.2.1))
  | _ => .error (.model "unchecked_unpersist: perms is not a table")

/-- l_persist: with a single argument it is the root object and a fresh
empty perms table is created and inserted below it; with two or more, the
first must be a table (the perms), the second is the root object and
lua_settop discards the rest. -/
def l_persist (fuel : Nat) (σ : Store) (self : Addr)
    (callW : Value → List Value → Except Err Value)
    (internal : List (Value × Value)) (args : List Value) :
    Except Err (List W) :=
  match args with
  | [rootobj] =>
    let e := freshAddr σ
    unchecked_persist fuel (supd σ e emptyTable) self callW internal e rootobj
  | permsv :: rootobj :: _ =>
    match permsv with
    | .table pa => unchecked_persist fuel σ self callW internal pa rootobj
    | _ => .error (.err "bad argument #1 (table expected)")
  | [] => .error (.err "bad argument #1 (table expected, got no value)")

/-- l_unpersist: the Lua-level byte-string argument and the RBuffer reader
are abstracted as the token stream; permsArg none is the single-argument
call, for which a fresh empty perms table is created. -/
def l_unpersist (fuel : Nat) (σ : Store)
    (callR : Value → List Value → RState → Except Err (Value × RState))
    (internal : List (Value × Value)) (permsArg : Option Value)
    (data : List W) : Except Err (Value × RState) :=
  match permsArg with
  | none =>
    let e := freshAddr σ
    unchecked_unpersist fuel (supd σ e emptyTable) callR internal e data
  | some (.table pa) => unchecked_unpersist fuel σ callR internal pa data
  | some _ => .error (.err "bad argument #1 (table expected)")


/-! Claim-support definitions: concrete data and relations used by the
theorems below. -/

/-- A lua_call oracle that is never invoked by the runs in this file. -/
def callWnone : Value → List Value → Except Err Value :=
  fun _ _ => .error (.model "callW is not exercised here")

def callRnone : Value → List Value → RState → Except Err (Value × RState) :=
  fun _ _ _ => .error (.model "callR is not exercised here")

/-- Writer-state extension: the reference counter is monotone and every
existing binding of the writer reftbl is preserved. -/
def WExt (ws ws' : WState) : Prop :=
  ws.refcount ≤ ws'.refcount ∧
  ∀ k i, lookupRef ws.reftbl k = some i → lookupRef ws'.reftbl k = some i

def PRExt (persistR : WState → Value → EW) : Prop :=
  ∀ ws v r, persistR ws v = .ok r → WExt ws r.1

def KRExt (keyedR : WState → Value → Value → Int → EW) : Prop :=
  ∀ ws v k t r, keyedR ws v k t = .ok r → WExt ws r.1

def TRExt (typedR : WState → Value → Int → EW) : Prop :=
  ∀ ws v t r, typedR ws v t = .ok r → WExt ws r.1

def LRExt (literal : WState → EW) : Prop :=
  ∀ ws r, literal ws = .ok r → WExt ws r.1

/-- Trivially small values: nil, booleans, light pointers, numbers. -/
def TrivialTag (v : Value) : Prop :=
  luaTypeOf v = LUA_TNIL ∨ luaTypeOf v = LUA_TBOOLEAN ∨
  luaTypeOf v = LUA_TLIGHTUSERDATA ∨ luaTypeOf v = LUA_TNUMBER

instance (v : Value) : Decidable (TrivialTag v) := by
  unfold TrivialTag
  infer_instance

def c5wStore : Store := [(1, .tbl ⟨[(.cfunction 99, .str (strBytes "K"))], none⟩)]
def c5rNum : Store := [(1, .tbl ⟨[(.str (strBytes "K"), .number 5)], none⟩)]
def c5rFn : Store := [(1, .tbl ⟨[(.str (strBytes "K"), .cfunction 77)], none⟩)]

def mtCycleStore : Store := [(0, .tbl ⟨[], some 0⟩), (1, emptyTable)]

/-- A suspended thread whose error-jump buffer is non-NULL and whose
error-function index is nonzero: the two conditions the claim says the
writer rejects. -/
def jmpThread : ThreadData :=
  { status := 1, nCcalls := 0, allowhook := 1, hook := false,
    errorJmp := true, errfunc := 5, stacksize := 40,
    stack := [.boolean true],
    callinfo := [⟨0, 1, 0, 0, 0, .c 0 0 none⟩],
    openupvals := [] }

end Eris

namespace Eris

/-! Definitions for the round-trip analysis (claim C1).  The literal
fragment covers every value kind whose round-trip the code can actually
promise: nil, booleans, light userdata, numbers, strings, C functions
resolved through the permanents table, and tables and full userdata
persisted literally, with arbitrary sharing and cycles.  Closures and
threads (whose reconstruction involves prototypes and upvalue records) and
special persistence (whose result is produced by a user callback) are
outside it. -/

/-- Heap addresses occurring in a value. -/
def vAddrs : Value → List Addr
  | .table a => [a]
  | .userdata a => [a]
  | _ => []

/-- Correspondence maps from writer addresses to reader addresses. -/
abbrev AMap := List (Addr × Addr)

def mfind (m : AMap) (a : Addr) : Option Addr :=
  (m.find? (fun e => e.1 = a)).map (fun e => e.2)

/-- Renaming of a value along a correspondence map (addresses without an
entry are left unchanged; the permanents indirection preserves them). -/
def mapv (m : AMap) : Value → Value
  | .table a => .table ((mfind m a).getD a)
  | .userdata a => .userdata ((mfind m a).getD a)
  | v => v

/-- Reader-state evolution of one complete value read: fresh addresses
only grow, the heap below the old frontier and the reftbl up to the old
counter are untouched. -/
structure RStep (rs rs' : RState) : Prop where
  next_mono : rs.next ≤ rs'.next
  count_mono : rs.refcount ≤ rs'.refcount
  σpres : ∀ a, a < rs.next → sfind rs'.σ a = sfind rs.σ a
  rtpres : ∀ i, i ≤ rs.refcount → lookupRT rs'.reftbl i = lookupRT rs.reftbl i

def c9proto : ProtoData :=
  ⟨0, 0, 0, 0, 2, [1], [], [], [⟨0, 0, none⟩], none, [], []⟩

/-- A one-row table at 5 whose slot 2 already names upvalue cell 7, and a
closure at 6 with one still-empty upvalue slot: the shared-path witness
state. -/
def c9wσ : Store :=
  [(5, .tbl ⟨[(.number 1, .number 42), (.number 2, .lightuserdata 7)], none⟩),
   (6, .clos (.l 9 [none]))]

def c9wrs : RState := ⟨c9wσ, 100, 0, []⟩

/-- A constant reader continuation delivering the record table 5. -/
def c9wrec : RState → List W → Option Value → ER :=
  fun rs _ _ => .ok (.table 5, rs, [])

/-- Two Lua closures (11 and 12) share the open upvalue cell 10; the
persisted root table 30 reaches g (12) only through the value of the
shared upvalue (table 40), so the reader meets the upvalue record a first
time in the middle of reading its own value and installs a temporary nil
that the second visit must overwrite. -/
def c9store : Store :=
  [(1, emptyTable),
   (10, .upv (.table 40)),
   (20, .prot c9proto),
   (11, .clos (.l 20 [some 10])),
   (12, .clos (.l 20 [some 10])),
   (40, .tbl ⟨[(.number 1, .closure 12)], none⟩),
   (30, .tbl ⟨[(.number 1, .closure 11)], none⟩)]

end Eris

namespace Eris



/-- C2: refuted by the code (code bug relative to the documented format).
The entry-level persist writes no header at all: the stream for the boolean
true is exactly the two tokens of the value encoding (its type tag and its
body byte), with no magic bytes, no int/size/float widths and no canary
float in front; and the entry-level unpersist decodes that stream from the
first framing word without any compatibility check. -/
theorem C2_no_entry_header :
    unchecked_persist 20 [(1, emptyTable)] 0 callWnone [] 1 (.boolean true) =
      .ok [W.wInt 1, W.wByte 1] ∧
    (unchecked_unpersist 20 [(1, emptyTable)] callRnone [] 1
        [W.wInt 1, W.wByte 1]).map Prod.fst = .ok (.boolean true) := by
  constructor <;> rfl

/-- C10: when the Lua-facing entry points are called with a single
argument, it is treated as the value (respectively the data), a fresh empty
permanents table is supplied implicitly, and the call behaves exactly like
the two-argument call with that empty table. -/
theorem C10_default_perms :
    (∀ fuel σ self callW internal v,
      l_persist fuel σ self callW internal [v] =
        l_persist fuel (supd σ (freshAddr σ) emptyTable) self callW internal
          [.table (freshAddr σ), v]) ∧
    (∀ fuel σ callR internal data,
      l_unpersist fuel σ callR internal none data =
        l_unpersist fuel (supd σ (freshAddr σ) emptyTable) callR internal
          (some (.table (freshAddr σ))) data) := by
  constructor <;> intros <;> rfl

/-- C4: the PERMANENT path allocates a reference id before recursing into
the permanent key on both sides: persist_keyed binds the key to the fresh
id and only then emits the PERMANENT tag, the original kind tag and the
recursively persisted replacement key (the recursive call already sees the
binding); u_permanent reserves a reftbl slot (the recursive call already
sees it) and rewrites that slot with the resolved object; and a concrete
graph referencing the same permanent key twice round-trips to a single
shared object. -/
theorem C4_permanent_id_before_key :
    (∀ persistR typedR pi ws obj key type pk,
      lookupRef ws.reftbl key = none →
      lookupA pi.permsW key = some pk →
      lookupRef ((key, ws.refcount + 1) :: ws.reftbl) key = some (ws.refcount + 1) ∧
      persist_keyedA persistR typedR pi ws obj key type =
        (persistR ⟨ws.refcount + 1, (key, ws.refcount + 1) :: ws.reftbl⟩ pk).map
          (fun r => (r.1, W.wInt ERIS_PERMANENT :: W.wInt (luaTypeOf obj) :: r.2))) ∧
    (∀ (recur : RState → List W → Option Value → ER) (ui : UnpersistInfo)
        (rs : RState) (type : Int) rest k rs2 s2 obj,
      recur { rs with refcount := rs.refcount + 1,
                      reftbl := (rs.refcount + 1, Value.nil) :: rs.reftbl }
          rest none = .ok (k, rs2, s2) →
      lookupA ui.permsR k = some obj →
      luaTypeOf obj = type →
      u_permanentA recur ui rs (W.wInt type :: rest) =
        .ok (obj, { rs2 with reftbl := (rs.refcount + 1, obj) :: rs2.reftbl }, s2) ∧
      lookupRT ((rs.refcount + 1, obj) :: rs2.reftbl) (rs.refcount + 1) = some obj) ∧
    ((unchecked_persist 10 [(7, .tbl ⟨[], none⟩),
        (8, .tbl ⟨[(.number 1, .table 7), (.number 2, .table 7)], none⟩),
        (9, .tbl ⟨[(.table 7, .str (strBytes "K"))], none⟩)] 0 callWnone [] 9
        (.table 8)).bind (fun s =>
      (unchecked_unpersist 10 [(7, .tbl ⟨[], none⟩),
          (10, .tbl ⟨[(.str (strBytes "K"), .table 7)], none⟩)] callRnone [] 10
          s).map (fun r => (r.1, sfind r.2.σ 11))) =
      .ok (.table 11, some (.tbl ⟨[(.number 1, .table 7), (.number 2, .table 7)], none⟩))) := by
  refine ⟨?_, ?_, ?_⟩
  · intro persistR typedR pi ws obj key type pk hmiss hperm
    constructor
    · simp [lookupRef]
    · simp only [persist_keyedA, hmiss, hperm]
  · intro recur ui rs type rest k rs2 s2 obj hrec hperm htype
    constructor
    · simp [u_permanentA, readInt, registerobject, hrec, hperm, htype,
        Bind.bind, Except.bind]
    · simp [lookupRT]
  · rfl

end Eris

namespace Eris

/-- Inversion helpers for Except chains. -/
theorem bind_ok {α β : Type} {x : Except Err α} {f : α → Except Err β} {r : β}
    (h : x >>= f = .ok r) : ∃ a, x = .ok a ∧ f a = .ok r := by
  cases x with
  | ok a => exact ⟨a, rfl, h⟩
  | error e => exact absurd h (by simp [Bind.bind, Except.bind])

theorem map_ok {α β : Type} {x : Except Err α} {f : α → β} {r : β}
    (h : x.map f = .ok r) : ∃ a, x = .ok a ∧ f a = r := by
  cases x with
  | ok a => exact ⟨a, rfl, by simpa [Except.map] using h⟩
  | error e => exact absurd h (by simp [Except.map])



theorem WExt.rfl {ws : WState} : WExt ws ws := ⟨le_refl _, fun _ _ h => h⟩

theorem WExt.trans {a b c : WState} (h1 : WExt a b) (h2 : WExt b c) : WExt a c :=
  ⟨le_trans h1.1 h2.1, fun k i h => h2.2 k i (h1.2 k i h)⟩

theorem lookupRef_cons (e : Value × Nat) (rt : List (Value × Nat)) (k : Value) :
    lookupRef (e :: rt) k = if e.1 = k then some e.2 else lookupRef rt k := by
  simp only [lookupRef, List.find?]
  by_cases h : e.1 = k <;> simp [h]

theorem lookupRT_cons (e : Nat × Value) (rt : List (Nat × Value)) (k : Nat) :
    lookupRT (e :: rt) k = if e.1 = k then some e.2 else lookupRT rt k := by
  simp only [lookupRT, List.find?]
  by_cases h : e.1 = k <;> simp [h]

theorem lookupA_cons (e : Value × Value) (ps : List (Value × Value)) (k : Value) :
    lookupA (e :: ps) k = if e.1 = k then some e.2 else lookupA ps k := by
  simp only [lookupA, List.find?]
  by_cases h : e.1 = k <;> simp [h]

/-- Prepending a binding for an unbound key preserves all lookups. -/
theorem WExt.push {ws : WState} {key : Value}
    (h : lookupRef ws.reftbl key = none) :
    WExt ws ⟨ws.refcount + 1, (key, ws.refcount + 1) :: ws.reftbl⟩ := by
  refine ⟨Nat.le_succ _, fun k i hk => ?_⟩
  rw [lookupRef_cons]
  split
  · next heq =>
    rw [← heq] at hk
    rw [hk] at h
    cases h
  · exact hk







theorem p_tpairs_ext {persistR} (hp : PRExt persistR) :
    ∀ ps ws r, p_tpairs persistR ps ws = .ok r → WExt ws r.1 := by
  intro ps
  induction ps with
  | nil =>
    intro ws r h
    simp only [p_tpairs] at h
    cases h
    exact WExt.rfl
  | cons kv rest ih =>
    obtain ⟨k, v⟩ := kv
    intro ws r h
    simp only [p_tpairs] at h
    obtain ⟨⟨ws1, o1⟩, h1, h⟩ := bind_ok h
    obtain ⟨⟨ws2, o2⟩, h2, h⟩ := bind_ok h
    obtain ⟨⟨ws3, o3⟩, h3, h⟩ := bind_ok h
    cases h
    dsimp only
    exact (hp _ _ _ h1).trans ((hp _ _ _ h2).trans (ih _ _ h3))

theorem p_metatable_ext {persistR} (hp : PRExt persistR) (pi : PersistInfo) :
    ∀ ws v r, p_metatable persistR pi ws v = .ok r → WExt ws r.1 := by
  intro ws v r h
  simp only [p_metatable] at h
  cases hm : getmetatableV pi.σ v <;> rw [hm] at h
  · exact hp _ _ _ h
  · exact hp _ _ _ h

end Eris

namespace Eris



theorem p_literaltable_ext {persistR} (hp : PRExt persistR) (pi : PersistInfo) :
    ∀ ws v r, p_literaltable persistR pi ws v = .ok r → WExt ws r.1 := by
  intro ws v r h
  simp only [p_literaltable] at h
  split at h
  · split at h
    · obtain ⟨⟨ws1, o1⟩, h1, h⟩ := bind_ok h
      obtain ⟨⟨ws2, o2⟩, h2, h⟩ := bind_ok h
      obtain ⟨⟨ws3, o3⟩, h3, h⟩ := bind_ok h
      cases h
      dsimp only
      exact (p_tpairs_ext hp _ _ _ h1).trans
        ((hp _ _ _ h2).trans (p_metatable_ext hp pi _ _ _ h3))
    · simp at h
  · simp at h

theorem p_literaluserdata_ext {persistR} (hp : PRExt persistR) (pi : PersistInfo) :
    ∀ ws v r, p_literaluserdata persistR pi ws v = .ok r → WExt ws r.1 := by
  intro ws v r h
  simp only [p_literaluserdata] at h
  split at h
  · split at h
    · obtain ⟨⟨ws1, o1⟩, h1, h⟩ := bind_ok h
      cases h
      dsimp only
      exact p_metatable_ext hp pi _ _ _ h1
    · simp at h
  · simp at h

theorem p_special_ext {persistR literal} (hp : PRExt persistR)
    (hl : LRExt literal) (pi : PersistInfo) :
    ∀ ws v r, p_special persistR pi literal ws v = .ok r → WExt ws r.1 := by
  intro ws v r h
  simp only [p_special] at h
  have finish : ∀ (b : Bool) (r : WState × List W),
      (if b then (literal ws).map (fun r => (r.1, W.wByte 0 :: r.2))
       else if luaTypeOf v = LUA_TTABLE then
         Except.error (Err.err "attempt to persist forbidden table")
       else Except.error
         (Err.err "literally persisting userdata is disabled by default")) =
        .ok r → WExt ws r.1 := by
    intro b r h
    split at h
    · obtain ⟨⟨ws1, o1⟩, h1, h2⟩ := map_ok h
      have hw := hl _ _ h1
      rw [← h2]
      exact hw
    · split at h <;> simp at h
  split at h
  · exact finish _ _ h
  · split at h
    · exact finish _ _ h
    · split at h
      · exact finish _ _ h
      · split at h
        · obtain ⟨res, h1, h⟩ := bind_ok h
          split at h
          · obtain ⟨⟨ws1, o1⟩, h2, h3⟩ := map_ok h
            have hw := hp _ _ _ h2
            rw [← h3]
            exact hw
          · simp at h
        · simp at h

theorem p_table_ext {persistR} (hp : PRExt persistR) (pi : PersistInfo) :
    ∀ ws v r, p_table persistR pi ws v = .ok r → WExt ws r.1 := by
  intro ws v r h
  exact p_special_ext hp (fun ws r hr => p_literaltable_ext hp pi ws v r hr) pi ws v r h

theorem p_userdata_ext {persistR} (hp : PRExt persistR) (pi : PersistInfo) :
    ∀ ws v r, p_userdata persistR pi ws v = .ok r → WExt ws r.1 := by
  intro ws v r h
  exact p_special_ext hp (fun ws r hr => p_literaluserdata_ext hp pi ws v r hr) pi ws v r h

theorem p_protoks_ext {persistR} (hp : PRExt persistR) :
    ∀ ps ws r, p_protoks persistR ps ws = .ok r → WExt ws r.1 := by
  intro ps
  induction ps with
  | nil =>
    intro ws r h
    simp only [p_protoks] at h
    cases h
    exact WExt.rfl
  | cons c rest ih =>
    intro ws r h
    simp only [p_protoks] at h
    obtain ⟨⟨ws1, o1⟩, h1, h⟩ := bind_ok h
    obtain ⟨⟨ws2, o2⟩, h2, h⟩ := bind_ok h
    cases h
    dsimp only
    exact (hp _ _ _ h1).trans (ih _ _ h2)

theorem p_protops_ext {keyedR} (hk : KRExt keyedR) :
    ∀ ps ws r, p_protops keyedR ps ws = .ok r → WExt ws r.1 := by
  intro ps
  induction ps with
  | nil =>
    intro ws r h
    simp only [p_protops] at h
    cases h
    exact WExt.rfl
  | cons c rest ih =>
    intro ws r h
    simp only [p_protops] at h
    obtain ⟨⟨ws1, o1⟩, h1, h⟩ := bind_ok h
    obtain ⟨⟨ws2, o2⟩, h2, h⟩ := bind_ok h
    cases h
    dsimp only
    exact (hk _ _ _ _ _ h1).trans (ih _ _ h2)

theorem p_locvarsw_ext {persistR} (hp : PRExt persistR) :
    ∀ ps ws r, p_locvarsw persistR ps ws = .ok r → WExt ws r.1 := by
  intro ps
  induction ps with
  | nil =>
    intro ws r h
    simp only [p_locvarsw] at h
    cases h
    exact WExt.rfl
  | cons lv rest ih =>
    intro ws r h
    simp only [p_locvarsw] at h
    obtain ⟨⟨ws1, o1⟩, h1, h⟩ := bind_ok h
    obtain ⟨⟨ws2, o2⟩, h2, h⟩ := bind_ok h
    cases h
    dsimp only
    exact (hp _ _ _ h1).trans (ih _ _ h2)

theorem p_upvnamesw_ext {persistR} (hp : PRExt persistR) :
    ∀ ps ws r, p_upvnamesw persistR ps ws = .ok r → WExt ws r.1 := by
  intro ps
  induction ps with
  | nil =>
    intro ws r h
    simp only [p_upvnamesw] at h
    cases h
    exact WExt.rfl
  | cons u rest ih =>
    intro ws r h
    simp only [p_upvnamesw] at h
    obtain ⟨⟨ws1, o1⟩, h1, h⟩ := bind_ok h
    obtain ⟨⟨ws2, o2⟩, h2, h⟩ := bind_ok h
    cases h
    dsimp only
    exact (hp _ _ _ h1).trans (ih _ _ h2)

theorem p_proto_ext {persistR keyedR} (hp : PRExt persistR) (hk : KRExt keyedR)
    (pi : PersistInfo) :
    ∀ ws v r, p_proto persistR keyedR pi ws v = .ok r → WExt ws r.1 := by
  intro ws v r h
  simp only [p_proto] at h
  split at h
  · split at h
    · obtain ⟨⟨ws1, o1⟩, h1, h⟩ := bind_ok h
      obtain ⟨⟨ws2, o2⟩, h2, h⟩ := bind_ok h
      split at h
      · cases h
        dsimp only
        exact (p_protoks_ext hp _ _ _ h1).trans (p_protops_ext hk _ _ _ h2)
      · obtain ⟨⟨ws3, o3⟩, h3, h⟩ := bind_ok h
        obtain ⟨⟨ws4, o4⟩, h4, h⟩ := bind_ok h
        obtain ⟨⟨ws5, o5⟩, h5, h⟩ := bind_ok h
        cases h
        dsimp only
        exact (p_protoks_ext hp _ _ _ h1).trans
          ((p_protops_ext hk _ _ _ h2).trans ((hp _ _ _ h3).trans
            ((p_locvarsw_ext hp _ _ _ h4).trans (p_upvnamesw_ext hp _ _ _ h5))))
    · simp at h
  · simp at h

theorem p_upval_ext {persistR} (hp : PRExt persistR) :
    ∀ ws v r, p_upval persistR ws v = .ok r → WExt ws r.1 := by
  intro ws v r h
  exact hp _ _ _ h

theorem p_cclupvals_ext {persistR} (hp : PRExt persistR) :
    ∀ ps ws r, p_cclupvals persistR ps ws = .ok r → WExt ws r.1 := by
  intro ps
  induction ps with
  | nil =>
    intro ws r h
    simp only [p_cclupvals] at h
    cases h
    exact WExt.rfl
  | cons u rest ih =>
    intro ws r h
    simp only [p_cclupvals] at h
    obtain ⟨⟨ws1, o1⟩, h1, h⟩ := bind_ok h
    obtain ⟨⟨ws2, o2⟩, h2, h⟩ := bind_ok h
    cases h
    dsimp only
    exact (hp _ _ _ h1).trans (ih _ _ h2)

theorem p_lclupvals_ext {keyedR} (hk : KRExt keyedR) (pi : PersistInfo) :
    ∀ ps ws r, p_lclupvals keyedR pi ps ws = .ok r → WExt ws r.1 := by
  intro ps
  induction ps with
  | nil =>
    intro ws r h
    simp only [p_lclupvals] at h
    cases h
    exact WExt.rfl
  | cons u rest ih =>
    intro ws r h
    cases u with
    | none => simp [p_lclupvals] at h
    | some ua =>
      simp only [p_lclupvals] at h
      split at h
      · obtain ⟨⟨ws1, o1⟩, h1, h⟩ := bind_ok h
        obtain ⟨⟨ws2, o2⟩, h2, h⟩ := bind_ok h
        cases h
        dsimp only
        exact (hk _ _ _ _ _ h1).trans (ih _ _ h2)
      · simp at h

theorem p_closure_ext {persistR keyedR} (hp : PRExt persistR)
    (hk : KRExt keyedR) (pi : PersistInfo) :
    ∀ ws v r, p_closure persistR keyedR pi ws v = .ok r → WExt ws r.1 := by
  intro ws v r h
  simp only [p_closure] at h
  split at h
  · simp at h
  · split at h
    · obtain ⟨⟨ws1, o1⟩, h1, h⟩ := bind_ok h
      obtain ⟨⟨ws2, o2⟩, h2, h⟩ := bind_ok h
      cases h
      dsimp only
      exact (hp _ _ _ h1).trans (p_cclupvals_ext hp _ _ _ h2)
    · obtain ⟨⟨ws1, o1⟩, h1, h⟩ := bind_ok h
      obtain ⟨⟨ws2, o2⟩, h2, h⟩ := bind_ok h
      cases h
      dsimp only
      exact (hk _ _ _ _ _ h1).trans (p_lclupvals_ext hk pi _ _ _ h2)
    · simp at h
  · simp at h

theorem p_tstack_ext {persistR} (hp : PRExt persistR) :
    ∀ ps ws r, p_tstack persistR ps ws = .ok r → WExt ws r.1 := by
  intro ps
  induction ps with
  | nil =>
    intro ws r h
    simp only [p_tstack] at h
    cases h
    exact WExt.rfl
  | cons o rest ih =>
    intro ws r h
    simp only [p_tstack] at h
    obtain ⟨⟨ws1, o1⟩, h1, h⟩ := bind_ok h
    obtain ⟨⟨ws2, o2⟩, h2, h⟩ := bind_ok h
    cases h
    dsimp only
    exact (hp _ _ _ h1).trans (ih _ _ h2)

theorem p_tci_ext {persistR} (hp : PRExt persistR) :
    ∀ cis ws r, p_tci persistR cis ws = .ok r → WExt ws r.1 := by
  intro cis
  induction cis with
  | nil =>
    intro ws r h
    simp only [p_tci] at h
    cases h
    exact WExt.rfl
  | cons ci rest ih =>
    intro ws r h
    simp only [p_tci] at h
    split at h
    · simp at h
    · split at h
      · split at h
        · rw [pure_bind] at h
          obtain ⟨⟨ws2, o2⟩, h2, h⟩ := bind_ok h
          cases h
          dsimp only
          exact ih _ _ h2
        · simp [Bind.bind, Except.bind] at h
      · split at h
        · split at h
          · split at h
            · obtain ⟨⟨ws3, o3⟩, h3, h⟩ := bind_ok h
              rw [pure_bind] at h
              obtain ⟨⟨ws2, o2⟩, h2, h⟩ := bind_ok h
              cases h
              dsimp only
              exact (hp _ _ _ h3).trans (ih _ _ h2)
            · simp [Bind.bind, Except.bind] at h
          · rw [pure_bind] at h
            obtain ⟨⟨ws2, o2⟩, h2, h⟩ := bind_ok h
            cases h
            dsimp only
            exact ih _ _ h2
        · simp [Bind.bind, Except.bind] at h

theorem p_topenuv_ext {keyedR} (hk : KRExt keyedR) (stack : List Value) :
    ∀ ps ws r, p_topenuv keyedR stack ps ws = .ok r → WExt ws r.1 := by
  intro ps
  induction ps with
  | nil =>
    intro ws r h
    simp only [p_topenuv] at h
    cases h
    exact WExt.rfl
  | cons u rest ih =>
    obtain ⟨off, ua⟩ := u
    intro ws r h
    simp only [p_topenuv] at h
    obtain ⟨⟨ws1, o1⟩, h1, h⟩ := bind_ok h
    obtain ⟨⟨ws2, o2⟩, h2, h⟩ := bind_ok h
    cases h
    dsimp only
    exact (hk _ _ _ _ _ h1).trans (ih _ _ h2)

theorem p_thread_ext {persistR keyedR} (hp : PRExt persistR)
    (hk : KRExt keyedR) (pi : PersistInfo) :
    ∀ ws v r, p_thread persistR keyedR pi ws v = .ok r → WExt ws r.1 := by
  intro ws v r h
  simp only [p_thread] at h
  split at h
  · split at h
    · simp at h
    · split at h
      · obtain ⟨⟨ws1, o1⟩, h1, h⟩ := bind_ok h
        obtain ⟨⟨ws2, o2⟩, h2, h⟩ := bind_ok h
        obtain ⟨⟨ws3, o3⟩, h3, h⟩ := bind_ok h
        cases h
        dsimp only
        exact (p_tstack_ext hp _ _ _ h1).trans
          ((p_tci_ext hp _ _ _ h2).trans (p_topenuv_ext hk _ _ _ _ h3))
      · simp at h
  · simp at h

theorem persist_typed_ext {persistR keyedR} (hp : PRExt persistR)
    (hk : KRExt keyedR) (pi : PersistInfo) :
    ∀ ws v t r, persist_typed persistR keyedR pi ws v t = .ok r → WExt ws r.1 := by
  intro ws v t r h
  simp only [persist_typed] at h
  split at h
  · cases h; exact WExt.rfl
  · split at h
    · cases h; exact WExt.rfl
    · split at h
      · cases h; exact WExt.rfl
      · split at h
        · cases h; exact WExt.rfl
        · split at h
          · obtain ⟨⟨ws1, o1⟩, h1, h2⟩ := map_ok h
            have hw := p_table_ext hp pi _ _ _ h1
            rw [← h2]
            exact hw
          · split at h
            · obtain ⟨⟨ws1, o1⟩, h1, h2⟩ := map_ok h
              have hw := p_closure_ext hp hk pi _ _ _ h1
              rw [← h2]
              exact hw
            · split at h
              · obtain ⟨⟨ws1, o1⟩, h1, h2⟩ := map_ok h
                have hw := p_userdata_ext hp pi _ _ _ h1
                rw [← h2]
                exact hw
              · split at h
                · obtain ⟨⟨ws1, o1⟩, h1, h2⟩ := map_ok h
                  have hw := p_thread_ext hp hk pi _ _ _ h1
                  rw [← h2]
                  exact hw
                · split at h
                  · obtain ⟨⟨ws1, o1⟩, h1, h2⟩ := map_ok h
                    have hw := p_proto_ext hp hk pi _ _ _ h1
                    rw [← h2]
                    exact hw
                  · split at h
                    · obtain ⟨⟨ws1, o1⟩, h1, h2⟩ := map_ok h
                      have hw := p_upval_ext hp _ _ _ h1
                      rw [← h2]
                      exact hw
                    · simp at h

theorem persist_keyedA_ext {persistR typedR} (hp : PRExt persistR)
    (ht : TRExt typedR) (pi : PersistInfo) :
    ∀ ws obj key t r, persist_keyedA persistR typedR pi ws obj key t = .ok r →
      WExt ws r.1 := by
  intro ws obj key t r h
  simp only [persist_keyedA] at h
  split at h
  · cases h; exact WExt.rfl
  · next hmiss =>
    split at h
    · obtain ⟨⟨ws1, o1⟩, h1, h2⟩ := map_ok h
      have hw := (WExt.push hmiss).trans (hp _ _ _ h1)
      rw [← h2]
      exact hw
    · exact (WExt.push hmiss).trans (ht _ _ _ _ h)

theorem persistA_ext {keyedR} (hk : KRExt keyedR) :
    ∀ ws v r, persistA keyedR ws v = .ok r → WExt ws r.1 := by
  intro ws v r h
  simp only [persistA] at h
  split at h
  · cases h; exact WExt.rfl
  · split at h
    · cases h; exact WExt.rfl
    · split at h
      · cases h; exact WExt.rfl
      · split at h
        · cases h; exact WExt.rfl
        · exact hk _ _ _ _ _ h

theorem persist_keyed_ext :
    ∀ n pi, KRExt (persist_keyed n pi) := by
  intro n
  induction n with
  | zero =>
    intro pi ws v k t r h
    simp [persist_keyed] at h
  | succ n ih =>
    intro pi ws v k t r h
    simp only [persist_keyed] at h
    exact persist_keyedA_ext (persistA_ext (ih pi))
      (fun ws v t r h => persist_typed_ext (persistA_ext (ih pi)) (ih pi) pi ws v t r h)
      pi ws v k t r h

theorem persist_ext (n : Nat) (pi : PersistInfo) :
    ∀ ws v r, persist n pi ws v = .ok r → WExt ws r.1 := by
  intro ws v r h
  exact persistA_ext (persist_keyed_ext n pi) ws v r h

end Eris

namespace Eris



/-- C3: writer reference discipline.  (1) nil, booleans, light pointers
and numbers are always emitted inline, starting with their kind tag, and
never touch the reference table; (2) any other value not yet registered is
bound to the fresh reference id before its body (or its PERMANENT
replacement) is emitted; (3) a key is mapped to at most one id: every
binding survives unchanged through any successful persist; (4) every later
occurrence of a registered key is emitted as a single reference token
instead of a body. -/
theorem C3_writer_reference_discipline :
    (∀ n pi ws v, TrivialTag v →
      ∃ out, persist n pi ws v = .ok (ws, out) ∧
        out.head? = some (.wInt (luaTypeOf v))) ∧
    (∀ n pi ws (v : Value), ¬ TrivialTag v →
      lookupRef ws.reftbl v = none →
      lookupRef ((v, ws.refcount + 1) :: ws.reftbl) v = some (ws.refcount + 1) ∧
      persist (n + 1) pi ws v =
        (match lookupA pi.permsW v with
         | some pk =>
           (persist n pi ⟨ws.refcount + 1, (v, ws.refcount + 1) :: ws.reftbl⟩
             pk).map (fun r =>
               (r.1, W.wInt ERIS_PERMANENT :: W.wInt (luaTypeOf v) :: r.2))
         | none =>
           persist_typed (persistA (persist_keyed n pi)) (persist_keyed n pi)
             pi ⟨ws.refcount + 1, (v, ws.refcount + 1) :: ws.reftbl⟩ v
             (luaTypeOf v))) ∧
    (∀ n pi ws v ws1 out, persist n pi ws v = .ok (ws1, out) →
      ∀ k i, lookupRef ws.reftbl k = some i → lookupRef ws1.reftbl k = some i) ∧
    (∀ n pi ws (v : Value) i, ¬ TrivialTag v →
      lookupRef ws.reftbl v = some i →
      persist (n + 1) pi ws v =
        .ok (ws, [.wInt (Int.ofNat i + ERIS_REFERENCE_OFFSET)])) := by
  have hnt : ∀ v : Value, ¬ TrivialTag v →
      (luaTypeOf v = LUA_TNIL) = False ∧ (luaTypeOf v = LUA_TBOOLEAN) = False ∧
      (luaTypeOf v = LUA_TLIGHTUSERDATA) = False ∧
      (luaTypeOf v = LUA_TNUMBER) = False := by
    intro v hv
    refine ⟨?_, ?_, ?_, ?_⟩ <;>
      (simp only [eq_iff_iff, iff_false]; intro hc; exact hv (by unfold TrivialTag; tauto))
  refine ⟨?_, ?_, ?_, ?_⟩
  · intro n pi ws v hv
    cases v <;>
      simp_all [TrivialTag, persist, persistA, luaTypeOf, p_boolean, p_pointer,
        p_number, LUA_TNIL, LUA_TBOOLEAN, LUA_TLIGHTUSERDATA, LUA_TNUMBER,
        LUA_TSTRING, LUA_TTABLE, LUA_TUSERDATA, LUA_TFUNCTION, LUA_TTHREAD]
  · intro n pi ws v hv hmiss
    obtain ⟨e1, e2, e3, e4⟩ := hnt v hv
    constructor
    · rw [lookupRef_cons]
      simp
    · simp only [persist, persistA, e1, e2, e3, e4, if_false, persist_keyed,
        persist_keyedA, hmiss]
  · intro n pi ws v ws1 out h k i hk
    exact (persist_ext n pi ws v (ws1, out) h).2 k i hk
  · intro n pi ws v i hv hhit
    obtain ⟨e1, e2, e3, e4⟩ := hnt v hv
    simp only [persist, persistA, e1, e2, e3, e4, if_false, persist_keyed,
      persist_keyedA, hhit]

theorem C3_witness :
    ∃ out, persist 5 ⟨[], [], 0, callWnone⟩ ⟨0, []⟩ (.boolean true) =
      .ok (⟨0, []⟩, out) ∧
      out.head? = some (.wInt (luaTypeOf (.boolean true))) :=
  C3_writer_reference_discipline.1 5 ⟨[], [], 0, callWnone⟩ ⟨0, []⟩
    (.boolean true) (Or.inr (Or.inl rfl))

end Eris

namespace Eris



theorem C4_witness :
    persist_keyedA (fun ws _ => .ok (ws, []))
      (fun ws _ _ => .ok (ws, []))
      ⟨[], [(.table 7, .str (strBytes "K"))], 0, callWnone⟩
      ⟨0, []⟩ (.table 7) (.table 7) LUA_TTABLE =
      .ok (⟨1, [(.table 7, 1)]⟩, [W.wInt ERIS_PERMANENT, W.wInt LUA_TTABLE]) :=
  (C4_permanent_id_before_key.1 (fun ws _ => .ok (ws, []))
    (fun ws _ _ => .ok (ws, []))
    ⟨[], [(.table 7, .str (strBytes "K"))], 0, callWnone⟩
    ⟨0, []⟩ (.table 7) (.table 7) LUA_TTABLE (.str (strBytes "K")) rfl rfl).2

/-- C5: on unpersist of a PERMANENT marker the key is recursively
unpersisted and looked up in the reader perms table; a missing entry
raises the error bad permanent value (no value), and a resolved value
whose kind differs from the recorded kind tag raises the type-mismatch
error.  Concretely, persisting a function under key K and unpersisting
with perms mapping K to a number fails with function expected, got
number, while mapping K to a function substitutes that function. -/
theorem C5_permanent_lookup_errors :
    (∀ (recur : RState → List W → Option Value → ER) (ui : UnpersistInfo)
        (rs : RState) (type : Int) rest k rs2 s2,
      recur { rs with refcount := rs.refcount + 1,
                      reftbl := (rs.refcount + 1, Value.nil) :: rs.reftbl }
          rest none = .ok (k, rs2, s2) →
      lookupA ui.permsR k = none →
      u_permanentA recur ui rs (W.wInt type :: rest) =
        .error (.err "bad permanent value (no value)")) ∧
    (∀ (recur : RState → List W → Option Value → ER) (ui : UnpersistInfo)
        (rs : RState) (type : Int) rest k rs2 s2 obj,
      recur { rs with refcount := rs.refcount + 1,
                      reftbl := (rs.refcount + 1, Value.nil) :: rs.reftbl }
          rest none = .ok (k, rs2, s2) →
      lookupA ui.permsR k = some obj →
      luaTypeOf obj ≠ type →
      u_permanentA recur ui rs (W.wInt type :: rest) =
        .error (.err ("bad permanent value (" ++ typename type ++
          " expected, got " ++ typename (luaTypeOf obj) ++ ")"))) ∧
    ((l_persist 10 c5wStore 0 callWnone [] [.table 1, .cfunction 99]).bind
        (fun s => (l_unpersist 10 c5rNum callRnone [] (some (.table 1)) s).map
          Prod.fst) =
      .error (.err "bad permanent value (function expected, got number)")) ∧
    ((l_persist 10 c5wStore 0 callWnone [] [.table 1, .cfunction 99]).bind
        (fun s => (l_unpersist 10 c5rFn callRnone [] (some (.table 1)) s).map
          Prod.fst) =
      .ok (.cfunction 77)) := by
  refine ⟨?_, ?_, ?_, ?_⟩
  · intro recur ui rs type rest k rs2 s2 hrec hnone
    simp only [u_permanentA, readInt, registerobject, hrec, hnone, Bind.bind,
      Except.bind]
  · intro recur ui rs type rest k rs2 s2 obj hrec hsome htype
    simp only [u_permanentA, readInt, registerobject, hrec, hsome, Bind.bind,
      Except.bind]
    simp [htype]
  · rfl
  · rfl

theorem C5_witness :
    u_permanentA (fun rs s _ => .ok (.str (strBytes "K"), rs, s))
      ⟨[], callRnone⟩ ⟨[], 1, 0, []⟩ [W.wInt LUA_TFUNCTION] =
      .error (.err "bad permanent value (no value)") :=
  C5_permanent_lookup_errors.1 (fun rs s _ => .ok (.str (strBytes "K"), rs, s))
    ⟨[], callRnone⟩ ⟨[], 1, 0, []⟩ LUA_TFUNCTION [] (.str (strBytes "K"))
    ⟨[], 1, 1, [(1, Value.nil)]⟩ [] rfl rfl

end Eris

namespace Eris



/-- C6: the literal table body is the key/value pairs followed by a nil
sentinel key and one metatable slot; the reader creates and registers the
fresh table before consuming any pair (so cycles resolve to it, shown here
also concretely for a metatable cycle), and a decoded pair with a nil
value raises the error bad table value, got a nil value. -/
theorem C6_literal_table_format :
    (∀ n pi ws a t ws1 ws2 po mo,
      sfind pi.σ a = some (.tbl t) →
      p_tpairs (persist n pi) t.pairs ws = .ok (ws1, po) →
      p_metatable (persist n pi) pi ws1 (.table a) = .ok (ws2, mo) →
      p_literaltable (persist n pi) pi ws (.table a) =
        .ok (ws2, po ++ [W.wInt LUA_TNIL] ++ mo)) ∧
    (∀ (recur : RState → List W → Option Value → ER) (rs : RState) (s : List W),
      lookupRT ((rs.refcount + 1, Value.table rs.next) :: rs.reftbl)
        (rs.refcount + 1) = some (.table rs.next) ∧
      u_literaltable recur rs s =
        (u_littpairs recur rs.next (s.length + 1)
            { rs with σ := supd rs.σ rs.next (.tbl ⟨[], none⟩),
                      next := rs.next + 1, refcount := rs.refcount + 1,
                      reftbl := (rs.refcount + 1, Value.table rs.next) ::
                        rs.reftbl } s).bind
          (fun p => (u_metatableA recur (.table rs.next) p.1 p.2).bind
            (fun q => .ok (.table rs.next, q.1, q.2)))) ∧
    (∀ (recur : RState → List W → Option Value → ER) (e : Addr) (f : Nat)
        (rs : RState) s key rs1 s1 rs2 s2,
      recur rs s none = .ok (key, rs1, s1) → key ≠ .nil →
      recur rs1 s1 none = .ok (.nil, rs2, s2) →
      u_littpairs recur e (f + 1) rs s =
        .error (.err "bad table value, got a nil value")) ∧
    ((unchecked_persist 10 mtCycleStore 9 callWnone [] 1 (.table 0)).bind
        (fun s => (unchecked_unpersist 10 mtCycleStore callRnone [] 1 s).map
          (fun r => (r.1, sfind r.2.σ 2))) =
      .ok (.table 2, some (.tbl ⟨[], some 2⟩))) := by
  refine ⟨?_, ?_, ?_, ?_⟩
  · intro n pi ws a t ws1 ws2 po mo hσ hpairs hmeta
    have hnil : persist n pi ws1 Value.nil = .ok (ws1, [W.wInt LUA_TNIL]) := by
      simp [persist, persistA, luaTypeOf]
    simp only [p_literaltable, hσ, hpairs, hnil, hmeta, Bind.bind, Except.bind]
  · intro recur rs s
    constructor
    · rw [lookupRT_cons]
      simp
    · simp only [u_literaltable, registerobject, Bind.bind, Except.bind]
  · intro recur e f rs s key rs1 s1 rs2 s2 hkey hknil hval
    simp only [u_littpairs, hkey, hknil, hval, Bind.bind, Except.bind]
    simp [hknil]
  · rfl

theorem C6_witness :
    u_littpairs (fun rs s _ =>
        match s with
        | .wInt 3 :: .wNum n :: s => .ok (.number n, rs, s)
        | .wInt 0 :: s => .ok (.nil, rs, s)
        | _ => .error .couldNotRead)
      4 3 ⟨[], 1, 0, []⟩ [W.wInt 3, W.wNum 7, W.wInt 0] =
      .error (.err "bad table value, got a nil value") := by
  exact C6_literal_table_format.2.2.1 _ 4 2 ⟨[], 1, 0, []⟩
    [W.wInt 3, W.wNum 7, W.wInt 0] (.number 7) ⟨[], 1, 0, []⟩ [W.wInt 0]
    ⟨[], 1, 0, []⟩ [] rfl (by simp) rfl

end Eris

namespace Eris

/-- C7: special persistence.  The writer invokes the persist metafield
callable on the object; unless the result is a function it raises an
error, otherwise that function is persisted in place of the object behind
the marker byte.  The reader reserves a reference id bound temporarily to
nil before unpersisting the reconstruction callable (the recursive call
already sees the reserved slot), raises an error if the callable is not a
function, invokes it, raises a type-mismatch error if the result differs
from the original kind tag, and rewrites the reserved slot to the
constructed object. -/
theorem C7_special_persistence :
    (∀ (persistR : WState → Value → EW) (pi : PersistInfo)
        (literal : WState → EW) (ws : WState) (v : Value) mt fn res,
      getmetatableV pi.σ v = some mt →
      srawget pi.σ mt (.str persistKey) = fn →
      luaTypeOf fn = LUA_TFUNCTION →
      pi.callW fn [v] = .ok res →
      (luaTypeOf res ≠ LUA_TFUNCTION →
        p_special persistR pi literal ws v =
          .error (.err "__persist did not return a function")) ∧
      (luaTypeOf res = LUA_TFUNCTION →
        p_special persistR pi literal ws v =
          (persistR ws res).map (fun r => (r.1, W.wByte 1 :: r.2)))) ∧
    (∀ (recur : RState → List W → Option Value → ER) (ui : UnpersistInfo)
        (type : Int) (literal : RState → List W → ER) (rs : RState) rest spf
        rs1 s1 obj rs2,
      recur { rs with refcount := rs.refcount + 1,
                      reftbl := (rs.refcount + 1, Value.nil) :: rs.reftbl }
          rest none = .ok (spf, rs1, s1) →
      luaTypeOf spf = LUA_TFUNCTION →
      ui.callR spf [] rs1 = .ok (obj, rs2) →
      (luaTypeOf obj ≠ type →
        u_special recur ui type literal rs (W.wByte 1 :: rest) =
          .error (.err ("bad unpersist function (" ++ typename type ++
            " expected, returned " ++ typename (luaTypeOf obj) ++ ")"))) ∧
      (luaTypeOf obj = type →
        u_special recur ui type literal rs (W.wByte 1 :: rest) =
          .ok (obj, { rs2 with reftbl := (rs.refcount + 1, obj) :: rs2.reftbl },
            s1))) ∧
    (∀ (recur : RState → List W → Option Value → ER) (ui : UnpersistInfo)
        (type : Int) (literal : RState → List W → ER) (rs : RState) rest spf
        rs1 s1,
      recur { rs with refcount := rs.refcount + 1,
                      reftbl := (rs.refcount + 1, Value.nil) :: rs.reftbl }
          rest none = .ok (spf, rs1, s1) →
      luaTypeOf spf ≠ LUA_TFUNCTION →
      u_special recur ui type literal rs (W.wByte 1 :: rest) =
        .error (.err "invalid restore function")) := by
  refine ⟨?_, ?_, ?_⟩
  · intro persistR pi literal ws v mt fn res hmt hpk hfn hcall
    have hnotnil : luaTypeOf fn = LUA_TNIL ↔ False := by
      constructor
      · intro h; rw [h] at hfn; cases hfn
      · intro h; cases h
    have hnotbool : luaTypeOf fn = LUA_TBOOLEAN ↔ False := by
      constructor
      · intro h; rw [h] at hfn; cases hfn
      · intro h; cases h
    constructor
    · intro hres
      simp only [p_special, hmt, hpk, hnotnil, hnotbool, if_false, hfn,
        if_true, passIOToPersist, Bind.bind, Except.bind, hcall]
      simp only [LUA_TFUNCTION] at hres
      simp [hres, LUA_TNIL, LUA_TBOOLEAN, LUA_TFUNCTION]
    · intro hres
      simp only [p_special, hmt, hpk, hnotnil, hnotbool, if_false, hfn,
        if_true, passIOToPersist, Bind.bind, Except.bind, hcall]
      simp [hres, LUA_TNIL, LUA_TBOOLEAN, LUA_TFUNCTION]
  · intro recur ui type literal rs rest spf rs1 s1 obj rs2 hrec hspf hcall
    constructor
    · intro hobj
      simp only [u_special, readByte, registerobject, Bind.bind, Except.bind,
        hrec, hspf, if_true, passIOToPersist, hcall]
      simp [hobj]
    · intro hobj
      simp only [u_special, readByte, registerobject, Bind.bind, Except.bind,
        hrec, hspf, if_true, passIOToPersist, hcall]
      simp [hobj]
  · intro recur ui type literal rs rest spf rs1 s1 hrec hspf
    simp only [u_special, readByte, registerobject, Bind.bind, Except.bind,
      hrec]
    simp [hspf]

theorem C7_witness :
    u_special (fun rs s _ => .ok (.cfunction 5, rs, s))
      ⟨[], fun _ _ rs => .ok (.table 0, rs)⟩ LUA_TTABLE
      (fun _ _ => .error .couldNotRead) ⟨[], 1, 0, []⟩ [W.wByte 1] =
      .ok (.table 0, ⟨[], 1, 1, [(1, Value.table 0), (1, Value.nil)]⟩, []) := by
  have h := (C7_special_persistence.2.1 (fun rs s _ => .ok (.cfunction 5, rs, s))
    ⟨[], fun _ _ rs => .ok (.table 0, rs)⟩ LUA_TTABLE
    (fun _ _ => .error .couldNotRead) ⟨[], 1, 0, []⟩ [] (.cfunction 5)
    ⟨[], 1, 1, [(1, Value.nil)]⟩ [] (.table 0) ⟨[], 1, 1, [(1, Value.nil)]⟩
    rfl rfl rfl).2 rfl
  exact h

end Eris

namespace Eris



/-- C8, counterexample: a suspended thread with a non-null error-jump
buffer and a nonzero error-function index is persisted successfully (the
source only guards these fields with eris_assert, which compiles to a
no-op), contradicting the claim that every such thread is rejected with an
error. -/
theorem C8_errorjmp_counterexample :
    persist 10 ⟨[(3, .thrd jmpThread)], [], 0, callWnone⟩ ⟨0, []⟩ (.thread 3) =
      .ok (⟨1, [(.thread 3, 1)]⟩,
        [.wInt 8, .wByte 1, .wUShort 0, .wByte 1, .wInt 40, .wSize 1,
         .wInt 1, .wByte 1, .wSize 0, .wSize 1, .wShort 0, .wByte 0,
         .wPtrdiff 0, .wByte 0, .wByte 1, .wSize SIZE_SENTINEL]) := by
  rfl

/-- C8 (amended): the thread writer rejects the thread equal to the VM
performing the persist with the error cannot persist currently running
thread, and rejects threads with a yielded-hook frame (no frame of any
successfully persisted call-info chain carries CIST_HOOKYIELD, the error
being cannot persist yielded hooks); the two errors are distinct; and the
writer performs no check on the error-jump buffer or error-function index:
the result of p_thread is independent of both fields. -/
theorem C8_thread_rejections :
    (∀ persistR keyedR (pi : PersistInfo) ws (a : Addr), a = pi.self →
      p_thread persistR keyedR pi ws (.thread a) =
        .error (.err "cannot persist currently running thread")) ∧
    (∀ persistR cis ws r, p_tci persistR cis ws = .ok r →
      ∀ ci ∈ cis, ci.callstatus &&& CIST_HOOKYIELD = 0) ∧
    (Err.err "cannot persist currently running thread" ≠
      Err.err "cannot persist yielded hooks") ∧
    (∀ persistR keyedR (pi1 pi2 : PersistInfo) ws (a : Addr) (t : ThreadData)
        b1 b2 e1 e2,
      pi1.self = pi2.self →
      sfind pi1.σ a = some (.thrd { t with errorJmp := b1, errfunc := e1 }) →
      sfind pi2.σ a = some (.thrd { t with errorJmp := b2, errfunc := e2 }) →
      p_thread persistR keyedR pi1 ws (.thread a) =
        p_thread persistR keyedR pi2 ws (.thread a)) := by
  refine ⟨?_, ?_, ?_, ?_⟩
  · intro persistR keyedR pi ws a ha
    simp [p_thread, ha]
  · intro persistR cis
    induction cis with
    | nil => intro ws r h ci hci; cases hci
    | cons c rest ih =>
      intro ws r h ci hci
      simp only [p_tci] at h
      split at h
      · simp at h
      · next hnot =>
        rcases List.mem_cons.mp hci with hc | hc
        · subst hc
          simpa using hnot
        · split at h
          · split at h
            · rw [pure_bind] at h
              obtain ⟨⟨ws2, o2⟩, h2, h⟩ := bind_ok h
              exact ih _ _ h2 ci hc
            · simp [Bind.bind, Except.bind] at h
          · split at h
            · split at h
              · split at h
                · obtain ⟨⟨ws3, o3⟩, h3, h⟩ := bind_ok h
                  rw [pure_bind] at h
                  obtain ⟨⟨ws2, o2⟩, h2, h⟩ := bind_ok h
                  exact ih _ _ h2 ci hc
                · simp [Bind.bind, Except.bind] at h
              · rw [pure_bind] at h
                obtain ⟨⟨ws2, o2⟩, h2, h⟩ := bind_ok h
                exact ih _ _ h2 ci hc
            · simp [Bind.bind, Except.bind] at h
  · decide
  · intro persistR keyedR pi1 pi2 ws a t b1 b2 e1 e2 hself h1 h2
    simp only [p_thread, h1, h2, hself]

theorem C8_thread_rejections_witness :
    p_thread (persistA (persist_keyed 9 ⟨[(3, .thrd jmpThread)], [], 3, callWnone⟩))
      (persist_keyed 9 ⟨[(3, .thrd jmpThread)], [], 3, callWnone⟩)
      ⟨[(3, .thrd jmpThread)], [], 3, callWnone⟩ ⟨0, []⟩ (.thread 3) =
      .error (.err "cannot persist currently running thread") :=
  C8_thread_rejections.1 _ _ ⟨[(3, .thrd jmpThread)], [], 3, callWnone⟩
    ⟨0, []⟩ 3 rfl

end Eris


namespace Eris

/-! Foundation lemmas for the simulation argument. -/

theorem mapv_triv {m : AMap} {v : Value} (h : vAddrs v = []) :
    mapv m v = v := by
  cases v <;> simp_all [vAddrs, mapv]

theorem sfind_supd (σ : Store) (a : Addr) (o : Obj) (b : Addr) :
    sfind (supd σ a o) b = if a = b then some o else sfind σ b := by
  simp only [sfind, supd, List.find?]
  by_cases h : a = b <;> simp [h]

theorem RStep_trans {a b c : RState} (h1 : RStep a b) (h2 : RStep b c) :
    RStep a c := by
  refine ⟨le_trans h1.next_mono h2.next_mono,
    le_trans h1.count_mono h2.count_mono, fun x hx => ?_, fun i hi => ?_⟩
  · rw [h2.σpres x (lt_of_lt_of_le hx h1.next_mono), h1.σpres x hx]
  · rw [h2.rtpres i (le_trans hi h1.count_mono), h1.rtpres i hi]

end Eris

namespace Eris

end Eris

namespace Eris

end Eris

namespace Eris

end Eris

namespace Eris

end Eris

namespace Eris

theorem sfind_srawset_ne {σ : Store} {e : Addr} {k v : Value} {b : Addr}
    (hne : b ≠ e) : sfind (srawset σ e k v) b = sfind σ b := by
  unfold srawset
  split
  case h_1 t ht =>
    rw [sfind_supd, if_neg (fun hh => hne hh.symm)]
  case h_2 => rfl

end Eris

namespace Eris

end Eris

namespace Eris

end Eris

namespace Eris

end Eris

namespace Eris

end Eris

namespace Eris

end Eris

namespace Eris

end Eris

namespace Eris

end Eris

namespace Eris

end Eris

namespace Eris

theorem sfind_setLClUpval_ne {σ : Store} {e : Addr} {k : Nat} {ua : Addr}
    {b : Addr} (hne : b ≠ e) :
    sfind (setLClUpval σ e k ua) b = sfind σ b := by
  unfold setLClUpval
  split
  case h_1 => rw [sfind_supd, if_neg (fun hh => hne hh.symm)]
  case h_2 => rfl

theorem sfind_setLClUpval_self {σ : Store} {e : Addr} {k : Nat} {ua : Addr}
    {pa : Addr} {ups : List (Option Addr)}
    (he : sfind σ e = some (.clos (.l pa ups))) :
    sfind (setLClUpval σ e k ua) e =
      some (.clos (.l pa (ups.set k (some ua)))) := by
  unfold setLClUpval
  simp only [he]
  rw [sfind_supd, if_pos rfl]

theorem sfind_uvinsert_ne {σ : Store} {rt : Addr} {ptr : Value} {b : Addr}
    (hne : b ≠ rt) :
    ∀ f i, sfind (uvinsert σ rt ptr f i) b = sfind σ b := by
  intro f
  induction f with
  | zero => intro i; rfl
  | succ f ih =>
    intro i
    unfold uvinsert
    split
    · exact sfind_srawset_ne hne
    · exact ih (i + 1)

/-- C9: shared upvalues.  First, the general shared-path step of the
reader upvalue loop: when the upvalue record rt read for slot k of
closure e already carries an upvalue cell in its slot 2 (an earlier
closure reached the record first), the loop installs THAT cell into the
closure (so both closures end up with the same cell and a mutation
through one is observed through the other), and it overwrites the cell
value from slot 1 of the record even though the record was already seen,
so a temporary nil installed by a cycle is reconciled to the persist-time
value.  Second, a closed round-trip over c9store: the two reconstructed
closures 42 and 46 hold the one cell 48, whose final value is the
rebuilt table 45 rather than the temporary nil of the first visit, and
mutating the cell is observed at the shared address. -/
theorem C9_shared_upvalues :
    (∀ (recur : RState → List W → Option Value → ER) (e : Addr) (r k : Nat)
      (rs : RState) (s : List W) (rt : Addr) (rs1 : RState) (s1 : List W)
      (ua : Addr) (pa : Addr) (ups : List (Option Addr)),
      recur rs s none = .ok (.table rt, rs1, s1) →
      srawget rs1.σ rt (.number 2) = .lightuserdata ua →
      rt ≠ e → ua ≠ rt → ua ≠ e →
      sfind rs1.σ e = some (.clos (.l pa ups)) →
      ∃ σ4, u_lclupvals recur e (r + 1) k rs s =
          u_lclupvals recur e r (k + 1) { rs1 with σ := σ4 } s1 ∧
        sfind σ4 ua = some (.upv (srawget rs1.σ rt (.number 1))) ∧
        sfind σ4 e = some (.clos (.l pa (ups.set k (some ua))))) ∧
    (unchecked_persist 20 c9store 0 callWnone [] 1 (.table 30)).bind
        (fun s => (unchecked_unpersist 20 c9store callRnone [] 1 s).map
          (fun r => (r.1, sfind r.2.σ 42, sfind r.2.σ 46, sfind r.2.σ 48,
            sfind (supd r.2.σ 48 (.upv (.number 99))) 48))) =
      .ok (.table 41,
        some (.clos (.l 43 [some 48])),
        some (.clos (.l 43 [some 48])),
        some (.upv (.table 45)),
        some (.upv (.number 99))) := by
  constructor
  · intro recur e r k rs s rt rs1 s1 ua pa ups hrec hslot2 hne1 hne2 hne3
      hclos
    have hval : srawget (setLClUpval rs1.σ e k ua) rt (.number 1) =
        srawget rs1.σ rt (.number 1) := by
      unfold srawget
      rw [sfind_setLClUpval_ne hne1]
    refine ⟨
      (if stblLen (supd (setLClUpval rs1.σ e k ua) ua
          (.upv (srawget (setLClUpval rs1.σ e k ua) rt (.number 1)))) rt ≥ 2
       then
        srawset (supd (setLClUpval rs1.σ e k ua) ua
            (.upv (srawget (setLClUpval rs1.σ e k ua) rt (.number 1)))) rt
          (.number (Int.ofNat (stblLen (supd (setLClUpval rs1.σ e k ua) ua
            (.upv (srawget (setLClUpval rs1.σ e k ua) rt
              (.number 1)))) rt + 1)))
          (.lightuserdata (Nat.pair e k))
       else
        uvinsert (supd (setLClUpval rs1.σ e k ua)
            ua (.upv (srawget (setLClUpval rs1.σ e k ua) rt (.number 1))))
          rt (.lightuserdata (Nat.pair e k))
          (stblPairsLen (supd (setLClUpval rs1.σ e k ua) ua
            (.upv (srawget (setLClUpval rs1.σ e k ua) rt
              (.number 1)))) rt + 4) 3), ?_, ?_, ?_⟩
    · simp only [u_lclupvals, Bind.bind, Except.bind]
      rw [hrec]
      dsimp only
      rw [hslot2]
      dsimp only [Pure.pure, Except.pure]
      split <;> rfl
    · split
      case isTrue =>
        rw [sfind_srawset_ne hne2, sfind_supd, if_pos rfl, hval]
      case isFalse =>
        rw [sfind_uvinsert_ne hne2, sfind_supd, if_pos rfl, hval]
    · split
      case isTrue =>
        rw [sfind_srawset_ne (Ne.symm hne1), sfind_supd, if_neg hne3,
          sfind_setLClUpval_self hclos]
      case isFalse =>
        rw [sfind_uvinsert_ne (Ne.symm hne1), sfind_supd, if_neg hne3,
          sfind_setLClUpval_self hclos]
  · decide

end Eris

namespace Eris

theorem C9_shared_upvalues_witness :
    c9wrec c9wrs [] none = .ok (.table 5, c9wrs, []) ∧
    srawget c9wrs.σ 5 (.number 2) = .lightuserdata 7 ∧
    (5 : Addr) ≠ 6 ∧ (7 : Addr) ≠ 5 ∧ (7 : Addr) ≠ 6 ∧
    sfind c9wrs.σ 6 = some (.clos (.l 9 [none])) ∧
    ∃ σ4, u_lclupvals c9wrec 6 1 0 c9wrs [] =
        u_lclupvals c9wrec 6 0 1 { c9wrs with σ := σ4 } [] ∧
      sfind σ4 7 = some (.upv (srawget c9wrs.σ 5 (.number 1))) ∧
      sfind σ4 6 = some (.clos (.l 9 ([none].set 0 (some 7)))) :=
  ⟨rfl, by decide, by decide, by decide, by decide, by decide,
   C9_shared_upvalues.1 c9wrec 6 0 0 c9wrs [] 5 c9wrs [] 7 9 [none]
     rfl (by decide) (by decide) (by decide) (by decide) (by decide)⟩

end Eris
